import Mathlib

/-!
# Verification of the pyhub SDK core against its specification

Shallow embedding of `pyhub.sdk` (base client, SMSBower price parser,
provider resolver) in Lean 4.  Python strings are Lean `String`s, Python
floats are modelled as `ℚ` (every numeral occurring in these APIs is a
decimal numeral, and the code only parses, compares and sorts prices, so
the rational model is exact), Python ints as `ℤ`, JSON values as the
inductive `JVal`, Python `dict`s as insertion-ordered association lists,
and a raised exception as the `Except.error` branch.  The HTTP transport
is an oracle `Transport` mapping (action, params) to a response body;
each operation additionally returns the list of transport calls it
issued, in order.
-/

namespace PyHub

/-! ## List/char helpers (Python string primitives) -/

/-- `isPrefixL a b` : the char list `a` is a prefix of `b` (Python `str.startswith`). -/
def isPrefixL : List Char → List Char → Bool
  | [], _ => true
  | _ :: _, [] => false
  | a :: as, b :: bs => a = b && isPrefixL as bs

/-- `isSubstrL needle hay` : `needle` occurs contiguously inside `hay` (Python `in`). -/
def isSubstrL (needle : List Char) : List Char → Bool
  | [] => isPrefixL needle []
  | c :: rest => isPrefixL needle (c :: rest) || isSubstrL needle rest

/-- Python `needle in hay` on strings. -/
def strContains (hay needle : String) : Bool :=
  isSubstrL needle.data hay.data

/-- Python `s.startswith(pre)`. -/
def pyStartsWith (s pre : String) : Bool :=
  isPrefixL pre.data s.data

/-- Auxiliary for splitting: current (unfinished) first segment and the
remaining segments. -/
def splitOnCharAux (c : Char) : List Char → List Char × List (List Char)
  | [] => ([], [])
  | x :: xs =>
    let r := splitOnCharAux c xs
    if x = c then ([], r.1 :: r.2) else (x :: r.1, r.2)

/-- `splitOnChar c l` : split `l` at every occurrence of `c`
(Python `str.split(sep)` with a one-char separator; always non-empty). -/
def splitOnChar (c : Char) (l : List Char) : List (List Char) :=
  (splitOnCharAux c l).1 :: (splitOnCharAux c l).2

/-- Python `s.split(sep)` for a one-char separator `c`. -/
def pySplit (s : String) (c : Char) : List String :=
  (splitOnChar c s.data).map (fun l => String.mk l)

/-- Split at the first occurrence of `c`, if any
(Python `s.split(c, 1)` when it yields two parts). -/
def splitFirst (c : Char) : List Char → Option (List Char × List Char)
  | [] => none
  | x :: xs =>
    if x = c then some ([], xs)
    else (splitFirst c xs).map (fun p => (x :: p.1, p.2))

/-- Value of a list of decimal digit characters. -/
def digitsVal (ds : List Char) : Nat :=
  ds.foldl (fun n c => 10 * n + (c.toNat - 48)) 0

/-- Drop leading and trailing whitespace (Python `str.strip()`). -/
def pyStrip (s : String) : String :=
  String.mk (((s.data.dropWhile Char.isWhitespace).reverse.dropWhile
    Char.isWhitespace).reverse)

/-- Python `s.lower()` (ASCII; provider names and URLs are ASCII). -/
def pyLower (s : String) : String :=
  String.mk (s.data.map Char.toLower)

/-- Python `s.replace(c, "")` for a one-character pattern: remove every
occurrence. -/
def removeChar (c : Char) (s : String) : String :=
  String.mk (s.data.filter (fun x => x ≠ c))

/-- Python `float(s)` on the plain decimal subset these APIs use
(optional sign, digits, optional single decimal point; surrounding
whitespace allowed; no exponent, since no vendor payload uses one),
returning the exact rational value, or `none` when Python would raise
`ValueError`. -/
def pyFloat (s : String) : Option ℚ :=
  let t := (pyStrip s).data
  let signed : ℤ × List Char :=
    match t with
    | '+' :: r => (1, r)
    | '-' :: r => (-1, r)
    | r => (1, r)
  let ip := signed.2.takeWhile Char.isDigit
  let rest := signed.2.dropWhile Char.isDigit
  match rest with
  | [] => if ip.isEmpty then none else some (mkRat (signed.1 * digitsVal ip) 1)
  | '.' :: fr =>
    if fr.all Char.isDigit && !(ip.isEmpty && fr.isEmpty) then
      some (mkRat (signed.1 * (digitsVal ip * 10 ^ fr.length + digitsVal fr))
        (10 ^ fr.length))
    else none
  | _ => none

/-- Python `int(s)` on a decimal integer string (optional sign,
surrounding whitespace), or `none` when Python would raise. -/
def pyIntOfString (s : String) : Option ℤ :=
  let t := (pyStrip s).data
  let signed : ℤ × List Char :=
    match t with
    | '+' :: r => (1, r)
    | '-' :: r => (-1, r)
    | r => (1, r)
  if !signed.2.isEmpty && signed.2.all Char.isDigit then
    some (signed.1 * (digitsVal signed.2 : ℤ))
  else none

/-- Python `int(q)` on a float: truncation toward zero. -/
def pyTrunc (q : ℚ) : ℤ :=
  Int.tdiv q.num q.den

/-! ## JSON values and Python dict/truthiness primitives -/

/-- A parsed JSON value (result of `json.loads`).  Objects are
insertion-ordered association lists, as Python dicts are. -/
inductive JVal where
  | num (q : ℚ)
  | str (s : String)
  | bool (b : Bool)
  | null
  | arr (items : List JVal)
  | obj (fields : List (String × JVal))

/-- Python truthiness of a JSON-derived value. -/
def JVal.truthy : JVal → Bool
  | .num q => q ≠ 0
  | .str s => s ≠ ""
  | .bool b => b
  | .null => false
  | .arr items => !items.isEmpty
  | .obj fields => !fields.isEmpty

/-- `d.get(k)` on a dict given as a field list: `none` when the key is missing. -/
def getOpt (fields : List (String × JVal)) (k : String) : Option JVal :=
  (fields.find? (fun kv => kv.1 = k)).map (fun kv => kv.2)

/-- `d.get(k)` as observed by an `is None` check: a stored JSON `null`
is the same Python `None` as a missing key. -/
def getPy (fields : List (String × JVal)) (k : String) : Option JVal :=
  match getOpt fields k with
  | some .null => none
  | r => r

/-- `d.get(k, default)`. -/
def getD (fields : List (String × JVal)) (k : String) (dflt : JVal) : JVal :=
  (getOpt fields k).getD dflt

/-- Python `a or b`: the first operand if truthy, else the second. -/
def pyOr (a b : JVal) : JVal :=
  if a.truthy then a else b

/-- Python `float(x)` applied to a JSON-derived value, `none` when it raises. -/
def pyFloatVal : JVal → Option ℚ
  | .num q => some q
  | .str s => pyFloat s
  | .bool b => some (if b then 1 else 0)
  | _ => none

/-- Python `int(x)` applied to a JSON-derived value, `none` when it raises. -/
def pyIntVal : JVal → Option ℤ
  | .num q => some (pyTrunc q)
  | .str s => pyIntOfString s
  | .bool b => some (if b then 1 else 0)
  | _ => none

/-- The field list of a JSON object, `none` for any other shape. -/
def objFields : JVal → Option (List (String × JVal))
  | .obj fields => some fields
  | _ => none

/-- Insert-or-overwrite on an insertion-ordered association list:
Python `d[k] = v` (an existing key keeps its position, a new key is
appended at the end). -/
def upsert {α β : Type} [DecidableEq α] (m : List (α × β)) (k : α) (v : β) :
    List (α × β) :=
  if m.any (fun kv => kv.1 = k) then
    m.map (fun kv => if kv.1 = k then (k, v) else kv)
  else m ++ [(k, v)]

/-- Ascending sort (Python `sorted` / `list.sort` on numbers). -/
def sortAsc (l : List ℚ) : List ℚ :=
  List.insertionSort (fun a b => a ≤ b) l

/-! ## Domain model (`pyhub/sdk/base/schemas.py`) -/

/-- `Balance` (schemas.py lines 5-7). -/
structure Balance where
  amount : ℚ
  currency : String := "RUB"
deriving DecidableEq, Repr

/-- `NumberActivation` (schemas.py lines 10-14). -/
structure NumberActivation where
  activation_id : String
  phone_number : String
  service : String
  cost : Option ℚ := none
deriving DecidableEq, Repr

/-- `ActivationStatus` (schemas.py lines 17-20). -/
structure ActivationStatus where
  status : String
  code : Option String := none
  full_text : Option String := none
deriving DecidableEq, Repr

/-- The `cost` field of `ServicePrice` is `Union[float, List[float]]`
(schemas.py line 25). -/
inductive Cost where
  | scalar (p : ℚ)
  | listC (ps : List ℚ)
deriving DecidableEq, Repr

/-- The prices a `cost` value carries. -/
def Cost.values : Cost → List ℚ
  | .scalar p => [p]
  | .listC ps => ps

/-- `ServicePrice` (schemas.py lines 23-28). -/
structure ServicePrice where
  service : String
  cost : Cost
  min_price : ℚ
  max_price : ℚ
  count : ℤ
deriving DecidableEq, Repr

/-- `CountryPrices` (schemas.py lines 31-33); the `services` dict is an
insertion-ordered association list. -/
structure CountryPrices where
  country_id : ℤ
  services : List (String × ServicePrice)
deriving DecidableEq, Repr

/-! ## Transport and error model -/

/-- One transport call: the `action` query parameter and the
caller-supplied parameters, in insertion order.  (`_request` also sends
the constant `api_key` and the `action` itself inside the query dict,
client.py lines 39-43; the record keeps the action and the remaining
parameters.) -/
structure Call where
  action : String
  params : List (String × String)
deriving DecidableEq, Repr

/-- The error taxonomy.  The source raises `ValueError` (and Python
raises `TypeError`/`IndexError`) with distinguishable messages; the spec
names them VendorError / ParseError / UnknownProviderError /
MissingProviderError. -/
inductive ApiError where
  | vendorError (rawText : String)
  | parseError (message : String)
  | typeError (message : String)
  | indexError (message : String)
  | unknownProvider (key : String) (known : List String)
  | missingProvider
deriving DecidableEq, Repr

/-- The HTTP transport oracle: body text returned for a GET with the
given action and parameters (2xx responses; non-2xx raising is out of
scope of every claim). -/
def Transport : Type := String → List (String × String) → String

/-- The fixed vendor error token list (client.py line 53). -/
def errorTokens : List String :=
  ["BAD_KEY", "ERROR_SQL", "BAD_ACTION", "WRONG_ACTIVATION_ID", "NO_KEY", "BANNED"]

/-- The body scan of `_request` (client.py lines 53-58): any token
occurring anywhere in the text fails the call with the raw text
(`ValueError(f"API Error: {text}")`). -/
def checkErrors (text : String) : Except ApiError String :=
  if errorTokens.any (fun err => strContains text err) then
    .error (.vendorError text)
  else .ok text

/-- `_request` (client.py lines 32-58) over the transport oracle,
returning the outcome and the singleton call trace. -/
def request (t : Transport) (action : String)
    (params : List (String × String)) : Except ApiError String × List Call :=
  (checkErrors (t action params), [⟨action, params⟩])

/-! ## Generic client operations (`pyhub/sdk/base/client.py`) -/

/-- The parsing part of `get_balance` (client.py lines 63-67):
`float(response.split(":")[1])` when a colon is present — note this is
the segment between the first and the second colon, not everything
after the first colon. -/
def parse_get_balance (response : String) : Except ApiError Balance :=
  if ':' ∈ response.data then
    match (pySplit response ':').get? 1 with
    | none => .error (.indexError "list index out of range")
    | some seg =>
      match pyFloat seg with
      | some q => .ok { amount := q }
      | none => .error (.parseError ("could not convert string to float: " ++ seg))
  else .error (.parseError ("Unexpected balance response: " ++ response))

/-- `get_balance` (client.py lines 60-67). -/
def get_balance (t : Transport) : Except ApiError Balance × List Call :=
  let r := request t "getBalance" []
  match r.1 with
  | .error e => (.error e, r.2)
  | .ok response => (parse_get_balance response, r.2)

/-- The query-parameter construction of `get_number`
(client.py lines 76-83).  `if operator:` is Python truthiness, so an
empty operator string is not sent at all; when an operator is sent and
a country other than 73 was supplied, the operator is overwritten with
the literal `"any"` (lines 80-81). -/
def get_number_params (service : String) (country : Option ℤ)
    (op : Option String) : List (String × String) :=
  let params := [("service", service)]
  let params :=
    match country with
    | some c => params ++ [("country", toString c)]
    | none => params
  match op with
  | some o =>
    if o ≠ "" then
      let o' :=
        match country with
        | some c => if c ≠ 73 then "any" else o
        | none => o
      params ++ [("operator", o')]
    else params
  | none => params

/-- The parsing part of `get_number` (client.py lines 87-94):
require the `ACCESS_NUMBER` prefix (`str.startswith`), split on every
colon, take parts 1 and 2. -/
def parse_get_number (service response : String) : Except ApiError NumberActivation :=
  if pyStartsWith response "ACCESS_NUMBER" then
    let parts := pySplit response ':'
    match parts.get? 1, parts.get? 2 with
    | some i, some n => .ok { activation_id := i, phone_number := n, service := service }
    | _, _ => .error (.indexError "list index out of range")
  else .error (.parseError ("Error getting number: " ++ response))

/-- `get_number` (client.py lines 69-94). -/
def get_number (t : Transport) (service : String) (country : Option ℤ)
    (op : Option String) : Except ApiError NumberActivation × List Call :=
  let r := request t "getNumber" (get_number_params service country op)
  match r.1 with
  | .error e => (.error e, r.2)
  | .ok response => (parse_get_number service response, r.2)

/-- `set_status` (client.py lines 96-99); the `status` int is rendered
into the query string. -/
def set_status (t : Transport) (activation_id : String) (status : ℤ) :
    Except ApiError String × List Call :=
  request t "setStatus" [("id", activation_id), ("status", toString status)]

/-- `active_status` (client.py lines 101-103): shortcut for status 1. -/
def active_status (t : Transport) (activation_id : String) :
    Except ApiError String × List Call :=
  set_status t activation_id 1

/-- `reactivation_number` (client.py lines 105-127): one
`getExtraActivation` request; on an `ACCESS_NUMBER:ID:NUMBER` response,
one `active_status` (setStatus status=1) call for the new id, then the
`NumberActivation` with service `"reactivation"`. -/
def reactivation_number (t : Transport) (activation_id : String) :
    Except ApiError NumberActivation × List Call :=
  let r := request t "getExtraActivation" [("activationId", activation_id)]
  match r.1 with
  | .error e => (.error e, r.2)
  | .ok response =>
    if pyStartsWith response "ACCESS_NUMBER" then
      let parts := pySplit response ':'
      match parts.get? 1, parts.get? 2 with
      | some new_id, some new_number =>
        let r2 := active_status t new_id
        match r2.1 with
        | .error e => (.error e, r.2 ++ r2.2)
        | .ok _ =>
          (.ok { activation_id := new_id, phone_number := new_number,
                 service := "reactivation" }, r.2 ++ r2.2)
      | _, _ => (.error (.indexError "list index out of range"), r.2)
    else (.error (.parseError ("Error reactivating number: " ++ response)), r.2)

/-- The parsing part of `get_status` (client.py lines 134-139): split on
the first colon into (status, code) when a colon is present, else the
whole text is the status. -/
def parse_get_status (response : String) : ActivationStatus :=
  match splitFirst ':' response.data with
  | some p => { status := String.mk p.1, code := some (String.mk p.2) }
  | none => { status := response }

/-- `get_status` (client.py lines 129-139). -/
def get_status (t : Transport) (activation_id : String) :
    Except ApiError ActivationStatus × List Call :=
  let r := request t "getStatus" [("id", activation_id)]
  match r.1 with
  | .error e => (.error e, r.2)
  | .ok response => (.ok (parse_get_status response), r.2)

/-- `get_sms` (client.py lines 141-156): one status query; the code on
`STATUS_OK`; `None` on the terminal statuses — and, by falling off the
end of the function, `None` on every other status as well. -/
def get_sms (t : Transport) (activation_id : String) :
    Except ApiError (Option String) × List Call :=
  let r := get_status t activation_id
  match r.1 with
  | .error e => (.error e, r.2)
  | .ok st =>
    if st.status = "STATUS_OK" then (.ok st.code, r.2)
    else if st.status ∈ ["STATUS_CANCEL", "NO_ACTIVATION", "ACCESS_CANCEL"] then
      (.ok none, r.2)
    else (.ok none, r.2)

/-- The parameter names `get_sms` accepts after `self`
(client.py line 141: `def get_sms(self, activation_id)`). -/
def get_sms_param_names : List String := ["activation_id"]

/-- The keyword arguments passed to `get_sms` at the call site inside
`get_new_sms` (client.py line 166:
`self.get_sms(activation_id, timeout=timeout, interval=interval)`). -/
def get_new_sms_call_kwargs : List String := ["timeout", "interval"]

/-- Python call binding: a keyword argument naming no parameter of the
callee makes the call raise `TypeError` before the callee body runs. -/
def kwargsAccepted : Bool :=
  get_new_sms_call_kwargs.all (fun k => get_sms_param_names.contains k)

/-- `get_new_sms` (client.py lines 159-166): `set_status(id, 3)`, then
the call `self.get_sms(activation_id, timeout=timeout, interval=interval)`.
That call passes the keywords `timeout` and `interval`, which
`get_sms` does not accept, so Python raises `TypeError` there. -/
def get_new_sms (t : Transport) (activation_id : String) :
    Except ApiError (Option String) × List Call :=
  let r := set_status t activation_id 3
  match r.1 with
  | .error e => (.error e, r.2)
  | .ok _ =>
    if kwargsAccepted then
      let r2 := get_sms t activation_id
      (r2.1, r.2 ++ r2.2)
    else
      (.error (.typeError "get_sms() got an unexpected keyword argument timeout"), r.2)

/-! ## Provider registry and resolver (`pyhub/sdk/api.py`) -/

/-- The provider classes the registry can instantiate. -/
inductive ProviderClass where
  | smshub
  | herosms
  | smsactivate
  | smsbower
deriving DecidableEq, Repr

/-- `PyHub._providers` (api.py lines 14-21), in insertion order. -/
def providers : List (String × ProviderClass) :=
  [("smshub", .smshub), ("herosms", .herosms), ("smsactivate", .smsactivate),
   ("smsbower", .smsbower), ("hero", .herosms), ("bower", .smsbower)]

/-- `PyHub._url_patterns` (api.py lines 23-28), in insertion order. -/
def urlPatterns : List (String × String) :=
  [("smshub.org", "smshub"), ("hero-sms.com", "herosms"),
   ("sms-activate", "smsactivate"), ("smsbower", "smsbower")]

/-- The provider-name normalization of `get_client` (api.py line 55):
`provider.lower().replace("-", "").replace("_", "").strip()`.
`str.strip()` removes leading and trailing whitespace only. -/
def normalizeProvider (p : String) : String :=
  pyStrip (removeChar '_' (removeChar '-' (pyLower p)))

/-- The base-URL branch of `get_client` (api.py lines 56-65): first
matching substring pattern wins, else the explicit `"smshub"` fallback;
a falsy (`none` or empty) URL yields no key at all. -/
def matchUrl : Option String → String
  | none => ""
  | some u =>
    if u = "" then ""
    else
      match urlPatterns.find? (fun pu => strContains (pyLower u) pu.1) with
      | some pu => pu.2
      | none => "smshub"

/-- The provider-resolution part of `PyHub.get_client`
(api.py lines 51-80): pure, performed before any network call.  An
empty resolved key is falsy in Python, so it hits the
"Could not identify provider" branch (line 67), not the
"not supported" branch (line 75). -/
def getClientResolve (provider base_url : Option String) :
    Except ApiError ProviderClass :=
  let provider_key : String :=
    match provider with
    | some p => if p ≠ "" then normalizeProvider p else matchUrl base_url
    | none => matchUrl base_url
  if provider_key = "" then .error .missingProvider
  else
    match (providers.find? (fun kv => kv.1 = provider_key)).map (fun kv => kv.2) with
    | some cls => .ok cls
    | none => .error (.unknownProvider provider_key (providers.map (fun kv => kv.1)))

/-! ## Standard price parsing (`get_prices`, client.py lines 186-238)

The JSON text is `json.loads`-decoded; everything from the decoded value
onward is modelled here (a decode failure is part of the ParseError
blanket `except`).  Any raised exception inside the traversal is the
`.error` branch, which the caller turns into the ParseError. -/

/-- The `freePriceMap` override shared verbatim by the standard parser
(client.py lines 217-223) and `process_entry` (lines 274-280): when the
entry holds a non-empty `freePriceMap` dict, the sorted list of its
parsed price keys (`none` when absent or empty, `.error` when a key is
not a number). -/
def freePriceMapPrices (fields : List (String × JVal)) :
    Except String (Option (List ℚ)) :=
  match getOpt fields "freePriceMap" with
  | some (.obj fpm) =>
    if !fpm.isEmpty then
      match fpm.mapM (fun kv => pyFloat kv.1) with
      | none => .error "float() on freePriceMap key"
      | some ks =>
        if !(sortAsc ks).isEmpty then .ok (some (sortAsc ks)) else .ok none
    else .ok none
  | _ => .ok none

/-- One service entry of the standard parser (client.py lines 207-231):
non-dict entries are skipped by the caller; `cost`-or-`price` scalar
base, overridden by a non-empty `freePriceMap` dict into the sorted
list of its parsed keys; `count` parsed last (at construction). -/
def std_service_entry (srv_code : String) (srv_data : List (String × JVal)) :
    Except String ServicePrice :=
  match pyFloatVal (pyOr (getD srv_data "cost" (.num 0)) (getD srv_data "price" (.num 0))) with
  | none => .error "float() on cost"
  | some base =>
    match freePriceMapPrices srv_data with
    | .error e => .error e
    | .ok fpm =>
      match pyIntVal (pyOr (getD srv_data "count" (.num 0)) (.num 0)) with
      | none => .error "int() on count"
      | some cnt =>
        match fpm with
        | some prices =>
          .ok { service := srv_code, cost := .listC prices,
                min_price := prices.headD 0, max_price := prices.getLastD 0,
                count := cnt }
        | none =>
          .ok { service := srv_code, cost := .scalar base,
                min_price := base, max_price := base, count := cnt }

/-- The per-country service loop of the standard parser
(client.py lines 205-231): non-dict service entries are skipped
(`continue`), dict entries become `service_map[srv_code] = ...`. -/
def std_services : List (String × JVal) → List (String × ServicePrice) →
    Except String (List (String × ServicePrice))
  | [], m => .ok m
  | (code, data) :: rest, m =>
    match data with
    | .obj fields =>
      match std_service_entry code fields with
      | .error e => .error e
      | .ok sp => std_services rest (upsert m code sp)
    | _ => std_services rest m

/-- The country loop of the standard parser (client.py lines 200-234):
non-dict `services` values are skipped, an empty `service_map` drops the
country, and `int(country_id)` is evaluated only when the country is
appended. -/
def std_countries : List (String × JVal) → Except String (List CountryPrices)
  | [] => .ok []
  | (cid, services) :: rest =>
    match services with
    | .obj svc_fields =>
      match std_services svc_fields [] with
      | .error e => .error e
      | .ok smap =>
        if !smap.isEmpty then
          match pyIntOfString cid with
          | none => .error "int() on country id"
          | some c =>
            match std_countries rest with
            | .error e => .error e
            | .ok l => .ok ({ country_id := c, services := smap } :: l)
        else std_countries rest
    | _ => std_countries rest

/-- `get_prices` parsing from the decoded JSON value
(client.py lines 190-235), including the one-element-list unwrap
(lines 197-198) and the silent `[]` result for a non-dict top level. -/
def parse_prices_data (data : JVal) : Except String (List CountryPrices) :=
  let d :=
    match data with
    | .arr items =>
      match items.head? with
      | some (.obj fields) => JVal.obj fields
      | _ => data
    | _ => data
  match d with
  | .obj fields => std_countries fields
  | _ => .ok []

/-! ## Top-countries parsing (`get_top_countries_by_service`,
client.py lines 252-329) -/

/-- The country map being pivoted into: country id → service dict
(`country_map` at client.py line 258). -/
abbrev CMap := List (ℤ × List (String × ServicePrice))

/-- The `ServicePrice` built by `process_entry`
(client.py lines 268-288): `price`-or-`cost`-or-`0` scalar base,
`freePriceMap` override, `count`. -/
def tc_service_price (srv_code : String) (entry : List (String × JVal)) :
    Except String ServicePrice :=
  match pyFloatVal (pyOr (pyOr (getD entry "price" (.num 0)) (getD entry "cost" (.num 0)))
      (.num 0)) with
  | none => .error "float() on price"
  | some base =>
    match freePriceMapPrices entry with
    | .error e => .error e
    | .ok fpm =>
      match pyIntVal (pyOr (getD entry "count" (.num 0)) (.num 0)) with
      | none => .error "int() on count"
      | some cnt =>
        match fpm with
        | some prices =>
          .ok { service := srv_code, cost := .listC prices,
                min_price := prices.headD 0, max_price := prices.getLastD 0,
                count := cnt }
        | none =>
          .ok { service := srv_code, cost := .scalar base,
                min_price := base, max_price := base, count := cnt }

/-- Write `country_map[c_id][srv_code] = sp` for a key known to be
present (client.py line 282). -/
def cmSet (m : CMap) (cid : ℤ) (srv : String) (sp : ServicePrice) : CMap :=
  m.map (fun kv => if kv.1 = cid then (kv.1, upsert kv.2 srv sp) else kv)

/-- `process_entry` (client.py lines 260-288): skip on a missing or
null `country`, ensure the country key exists, then store the built
`ServicePrice`.  A non-dict entry raises (`entry.get`). -/
def process_entry (srv_code : String) (entry : JVal) (m : CMap) :
    Except String CMap :=
  match entry with
  | .obj fields =>
    match getPy fields "country" with
    | none => .ok m
    | some cval =>
      match pyIntVal cval with
      | none => .error "int() on country"
      | some cid =>
        let m1 := if m.any (fun kv => kv.1 = cid) then m else m ++ [(cid, [])]
        match tc_service_price srv_code fields with
        | .error e => .error e
        | .ok sp => .ok (cmSet m1 cid srv_code sp)
  | _ => .error "AttributeError: get"

/-- Iterate `process_entry` over a list of entries; with `guarded`
true, non-dict entries are skipped (`isinstance(entry, dict)` guards at
client.py lines 300 and 304 — absent in the no-service branch,
lines 313-317 and 321-325, where a non-dict entry raises). -/
def tc_fold (srv : String) (guarded : Bool) : List JVal → CMap → Except String CMap
  | [], m => .ok m
  | e :: rest, m =>
    match e with
    | .obj fields =>
      match process_entry srv (.obj fields) m with
      | .error err => .error err
      | .ok m' => tc_fold srv guarded rest m'
    | _ =>
      if guarded then tc_fold srv guarded rest m
      else
        match process_entry srv e m with
        | .error err => .error err
        | .ok m' => tc_fold srv guarded rest m'

/-- Iterate entries arriving as a list or as an index-keyed mapping
(values); any other shape iterates nothing. -/
def tc_iter (srv : String) (guarded : Bool) (entries : JVal) (m : CMap) :
    Except String CMap :=
  match entries with
  | .arr items => tc_fold srv guarded items m
  | .obj fields => tc_fold srv guarded (fields.map (fun kv => kv.2)) m
  | _ => .ok m

/-- The inner `srv_code -> entries` loop of the no-service branch
(client.py lines 311-317 and 319-325). -/
def tc_srv_fold : List (String × JVal) → CMap → Except String CMap
  | [], m => .ok m
  | (srv, entries) :: rest, m =>
    match tc_iter srv false entries m with
    | .error e => .error e
    | .ok m' => tc_srv_fold rest m'

/-- The outer list loop of the no-service branch
(client.py lines 308-317): non-dict items are skipped. -/
def tc_items_fold : List JVal → CMap → Except String CMap
  | [], m => .ok m
  | (.obj fields) :: rest, m =>
    match tc_srv_fold fields m with
    | .error e => .error e
    | .ok m' => tc_items_fold rest m'
  | _ :: rest, m => tc_items_fold rest m

/-- The no-service traversal (client.py lines 306-325). -/
def tc_noservice (data : JVal) (m : CMap) : Except String CMap :=
  match data with
  | .arr items => tc_items_fold items m
  | .obj fields => tc_srv_fold fields m
  | _ => .ok m

/-- The traversal of `get_top_countries_by_service`
(client.py lines 290-325): with a truthy service filter, the payload is
unwrapped at the service key when present, then iterated with the dict
guard; else the no-service traversal runs. -/
def tc_traverse (service : Option String) (data : JVal) : Except String CMap :=
  match service with
  | some s =>
    if s ≠ "" then
      let entries :=
        match data with
        | .obj fields => (getOpt fields s).getD data
        | _ => data
      tc_iter s true entries []
    else tc_noservice data []
  | none => tc_noservice data []

/-- `get_top_countries_by_service` parsing from the decoded JSON value
(client.py lines 255-327): the traversal, then the final pivot turning
`country_map` into the `CountryPrices` list (line 327). -/
def parse_top_countries (service : Option String) (data : JVal) :
    Except String (List CountryPrices) :=
  match tc_traverse service data with
  | .error e => .error e
  | .ok m => .ok (m.map (fun kv => { country_id := kv.1, services := kv.2 }))

/-! ## SMSBower complex price parsing
(`_parse_complex_prices`, smsbower/client.py lines 75-110) -/

/-- The v2 inner loop (smsbower/client.py lines 86-89):
`float(price_str)` appended in iteration order, `int(count)` summed. -/
def cx_v2 : List (String × JVal) → List ℚ → ℤ → Except String (List ℚ × ℤ)
  | [], ps, tc => .ok (ps, tc)
  | (k, v) :: rest, ps, tc =>
    match pyFloat k with
    | none => .error "float() on price key"
    | some p =>
      match pyIntVal v with
      | none => .error "int() on count"
      | some c => cx_v2 rest (ps ++ [p]) (tc + c)

/-- The v3 inner loop (smsbower/client.py lines 92-95): over provider
values, `float(provider_data.get("price", 0))` appended and
`int(provider_data.get("count", 0))` summed; a non-dict provider value
raises (`.get`). -/
def cx_v3 : List JVal → List ℚ → ℤ → Except String (List ℚ × ℤ)
  | [], ps, tc => .ok (ps, tc)
  | pd :: rest, ps, tc =>
    match pd with
    | .obj fields =>
      match pyFloatVal (getD fields "price" (.num 0)) with
      | none => .error "float() on price"
      | some p =>
        match pyIntVal (getD fields "count" (.num 0)) with
        | none => .error "int() on count"
        | some c => cx_v3 rest (ps ++ [p]) (tc + c)
    | _ => .error "AttributeError: get"

/-- Extract (prices in iteration order, total count) for one service
(smsbower/client.py lines 84-95); `version == "v2"` selects the v2
shape, anything else the v3 shape. -/
def complex_service_data (version : String) (srv_data : List (String × JVal)) :
    Except String (List ℚ × ℤ) :=
  if version = "v2" then cx_v2 srv_data [] 0
  else cx_v3 (srv_data.map (fun kv => kv.2)) [] 0

/-- Build the `ServicePrice` from the accumulated prices
(smsbower/client.py lines 97-105): empty prices drop the service; the
sorted list collapses to its single element when `len(prices) <= 1`. -/
def cx_service (srv : String) (prices : List ℚ) (total : ℤ) :
    Option ServicePrice :=
  if prices.isEmpty then none
  else
    let sorted := sortAsc prices
    some { service := srv,
           cost := if 1 < sorted.length then .listC sorted
                   else .scalar (sorted.headD 0),
           min_price := sorted.headD 0, max_price := sorted.getLastD 0,
           count := total }

/-- The service loop of `_parse_complex_prices`
(smsbower/client.py lines 80-105): a non-dict service value raises
(`.items()` / `.values()`). -/
def cx_services (version : String) : List (String × JVal) →
    List (String × ServicePrice) → Except String (List (String × ServicePrice))
  | [], m => .ok m
  | (srv, sdata) :: rest, m =>
    match sdata with
    | .obj fields =>
      match complex_service_data version fields with
      | .error e => .error e
      | .ok pt =>
        match cx_service srv pt.1 pt.2 with
        | some sp => cx_services version rest (upsert m srv sp)
        | none => cx_services version rest m
    | _ => .error "AttributeError: items"

/-- The country loop of `_parse_complex_prices`
(smsbower/client.py lines 78-108): an empty `service_map` drops the
country; `int(country_id)` is evaluated only when appending. -/
def cx_countries (version : String) : List (String × JVal) →
    Except String (List CountryPrices)
  | [] => .ok []
  | (cid, services) :: rest =>
    match services with
    | .obj sfields =>
      match cx_services version sfields [] with
      | .error e => .error e
      | .ok smap =>
        if !smap.isEmpty then
          match pyIntOfString cid with
          | none => .error "int() on country id"
          | some c =>
            match cx_countries version rest with
            | .error e => .error e
            | .ok l => .ok ({ country_id := c, services := smap } :: l)
        else cx_countries version rest
    | _ => .error "AttributeError: items"

/-- `_parse_complex_prices` (smsbower/client.py lines 75-110) from the
decoded JSON value; a non-object top level raises (`.items()`). -/
def parse_complex_prices (data : JVal) (version : String) :
    Except String (List CountryPrices) :=
  match data with
  | .obj countries => cx_countries version countries
  | _ => .error "AttributeError: items"

/-! ## The spec's price invariant (spec section 3, ServicePrice) -/

/-- The invariant claimed for every produced `ServicePrice`:
`min_price` ≤ every value in `cost` ≤ `max_price`, and a scalar `cost`
forces `min_price == max_price == cost`. -/
def priceInvariant (sp : ServicePrice) : Prop :=
  (∀ p ∈ sp.cost.values, sp.min_price ≤ p ∧ p ≤ sp.max_price) ∧
  (∀ p : ℚ, sp.cost = Cost.scalar p → sp.min_price = p ∧ sp.max_price = p)

/-- Every entry of a service map satisfies the price invariant. -/
def smapInv (m : List (String × ServicePrice)) : Prop :=
  ∀ kv ∈ m, priceInvariant kv.2

/-- Every service map in the country pivot satisfies the invariant. -/
def cmapInv (m : CMap) : Prop :=
  ∀ kv ∈ m, smapInv kv.2

/-! ## Concrete fixtures used by witnesses and counterexamples -/

deriving instance DecidableEq for Except

/-- Assoc-list lookup on query parameters (test-side observation of what
was sent for a given key). -/
def lookupParam : List (String × String) → String → Option String
  | [], _ => none
  | (k, v) :: rest, key => if k = key then some v else lookupParam rest key

/-- A transport whose every response is a neutral non-error body. -/
def t_ok : Transport := fun _ _ => "ACCESS_ACTIVATION"

/-- A transport answering every action with a vendor error token. -/
def t_bad_key : Transport := fun _ _ => "BAD_KEY"

/-- A transport for the reactivation scenario of the test suite:
`getExtraActivation` answers with a fresh number, everything else with a
neutral body. -/
def t_react : Transport := fun action _ =>
  if action = "getExtraActivation" then "ACCESS_NUMBER:67890:79990000000"
  else "ACCESS_ACTIVATION"

/-- A transport whose `getStatus` answers `STATUS_OK:123456`. -/
def t_status_ok : Transport := fun _ _ => "STATUS_OK:123456"

/-- The SMSBower v2 example payload of the spec (section 8):
`{"0": {"tg": {"10.5": 100, "15.0": 50}}}`. -/
def v2Example : JVal :=
  .obj [("0", .obj [("tg", .obj [("10.5", .num 100), ("15.0", .num 50)])])]

/-- The SMSBower v3 example payload of the spec (section 8). -/
def v3Example : JVal :=
  .obj [("0", .obj [("tg", .obj
    [("prov1", .obj [("price", .num 12), ("count", .num 10)]),
     ("prov2", .obj [("price", .num 15), ("count", .num 5)])])])]

/-- The standard `getPrices` example payload of the spec (section 8):
`{"0": {"tg": {"cost": 10.5, "count": 100}}}`. -/
def stdExample : JVal :=
  .obj [("0", .obj [("tg", .obj [("cost", .num (mkRat 21 2)), ("count", .num 100)])])]

/-- The top-countries example payload of the spec (section 8):
`{"tg": {"0": {"country": 0, "price": 10.0, "count": 100}}}`. -/
def tcExample : JVal :=
  .obj [("tg", .obj [("0", .obj
    [("country", .num 0), ("price", .num 10), ("count", .num 100)])])]

/-- A v2 payload whose two price keys are distinct strings but the same
number: `{"0": {"tg": {"10": 5, "10.0": 3}}}`. -/
def v2DupPrice : JVal :=
  .obj [("0", .obj [("tg", .obj [("10", .num 5), ("10.0", .num 3)])])]

/-- What the v2 parser produces for `v2DupPrice`: the duplicated price
list `[10, 10]`, not a deduplicated scalar. -/
def v2DupOut : CountryPrices where
  country_id := 0
  services := [("tg",
    { service := "tg", cost := .listC [10, 10],
      min_price := 10, max_price := 10, count := 8 })]

/-- The `ServicePrice` built by `cx_service` for prices
`[15, 21/2]` and total 150. -/
def cxSpExample : ServicePrice where
  service := "tg"
  cost := .listC [mkRat 21 2, 15]
  min_price := mkRat 21 2
  max_price := 15
  count := 150

/-- What the standard parser produces for `stdExample`. -/
def stdTgSp : ServicePrice where
  service := "tg"
  cost := .scalar (mkRat 21 2)
  min_price := mkRat 21 2
  max_price := mkRat 21 2
  count := 100

/-- What the top-countries parser produces for `tcExample`. -/
def tcTgSp : ServicePrice where
  service := "tg"
  cost := .scalar 10
  min_price := 10
  max_price := 10
  count := 100

/-- What the v2 parser produces for `v2Example`. -/
def v2TgSp : ServicePrice where
  service := "tg"
  cost := .listC [mkRat 21 2, 15]
  min_price := mkRat 21 2
  max_price := 15
  count := 150

/-- What the v3 parser produces for `v3Example`. -/
def v3TgSp : ServicePrice where
  service := "tg"
  cost := .listC [12, 15]
  min_price := 12
  max_price := 15
  count := 15

/-! ## Helper lemmas -/

theorem dataAppend (a b : String) : (a ++ b).data = a.data ++ b.data := by
  cases a; cases b; rfl

theorem isPrefixL_self_append (a b : List Char) : isPrefixL a (a ++ b) = true := by
  induction a with
  | nil => rfl
  | cons x xs ih => simp [isPrefixL, ih]

theorem splitOnCharAux_of_not_mem (c : Char) (l : List Char) (h : c ∉ l) :
    splitOnCharAux c l = (l, []) := by
  induction l with
  | nil => rfl
  | cons x xs ih =>
    simp only [List.mem_cons, not_or] at h
    simp [splitOnCharAux, ih h.2, Ne.symm h.1]

theorem splitOnCharAux_append (c : Char) (a b : List Char) (ha : c ∉ a) :
    splitOnCharAux c (a ++ c :: b) = ([], splitOnChar c b).map (a ++ ·) id := by
  induction a with
  | nil => simp [splitOnCharAux, splitOnChar]
  | cons x xs ih =>
    simp only [List.mem_cons, not_or] at ha
    simp [splitOnCharAux, ih ha.2, Ne.symm ha.1]

theorem splitOnChar_append (c : Char) (a b : List Char) (ha : c ∉ a) :
    splitOnChar c (a ++ c :: b) = a :: splitOnChar c b := by
  simp [splitOnChar, splitOnCharAux_append c a b ha]

theorem splitOnChar_of_not_mem (c : Char) (l : List Char) (h : c ∉ l) :
    splitOnChar c l = [l] := by
  simp [splitOnChar, splitOnCharAux_of_not_mem c l h]

theorem splitOnCharAux_snd_ne_nil (c : Char) (l : List Char) (h : c ∈ l) :
    (splitOnCharAux c l).2 ≠ [] := by
  induction l with
  | nil => cases h
  | cons x xs ih =>
    by_cases hx : x = c
    · simp [splitOnCharAux, hx]
    · have hm : c ∈ xs := by
        rcases List.mem_cons.mp h with h1 | h1
        · exact absurd h1.symm hx
        · exact h1
      simp only [splitOnCharAux, if_neg hx]
      simpa using ih hm

theorem two_le_splitOnChar_length (c : Char) (l : List Char) (h : c ∈ l) :
    2 ≤ (splitOnChar c l).length := by
  have h1 := splitOnCharAux_snd_ne_nil c l h
  have h2 : 0 < (splitOnCharAux c l).2.length := List.length_pos.mpr h1
  simp only [splitOnChar, List.length_cons]
  omega

theorem sortAsc_sorted (l : List ℚ) : (sortAsc l).Sorted (fun a b => a ≤ b) :=
  List.sorted_insertionSort _ l

theorem sortAsc_perm (l : List ℚ) : (sortAsc l).Perm l :=
  List.perm_insertionSort _ l

theorem sorted_headD_le {l : List ℚ} (hs : l.Sorted (fun a b => a ≤ b))
    {p : ℚ} (hp : p ∈ l) : l.headD 0 ≤ p := by
  induction l with
  | nil => cases hp
  | cons a t _ =>
    rcases List.mem_cons.mp hp with h1 | h1
    · simp [h1]
    · simpa using (List.sorted_cons.mp hs).1 p h1

theorem sorted_le_getLastD : ∀ (l : List ℚ), l.Sorted (fun a b => a ≤ b) →
    ∀ p ∈ l, p ≤ l.getLastD 0 := by
  intro l
  induction l with
  | nil => intro _ p hp; cases hp
  | cons a t ih =>
    intro hs p hp
    rcases List.sorted_cons.mp hs with ⟨hrel, hst⟩
    cases t with
    | nil =>
      simp only [List.mem_singleton] at hp
      simp [hp]
    | cons b t2 =>
      have hlast : (a :: b :: t2).getLastD 0 = (b :: t2).getLastD 0 := rfl
      rw [hlast]
      rcases List.mem_cons.mp hp with h1 | h1
      · subst h1
        exact le_trans (hrel b (List.mem_cons_self b t2)) (ih hst b (List.mem_cons_self b t2))
      · exact ih hst p h1

theorem colonData : (":" : String).data = [':'] := rfl

theorem pySplit_double (pre post : String) (hpre : ':' ∉ pre.data)
    (hpost : ':' ∉ post.data) :
    pySplit (pre ++ ":" ++ post) ':' = [pre, post] := by
  have hdata : (pre ++ ":" ++ post).data = pre.data ++ ':' :: post.data := by
    simp [dataAppend, colonData]
  unfold pySplit
  rw [hdata, splitOnChar_append ':' pre.data post.data hpre,
      splitOnChar_of_not_mem ':' post.data hpost]
  rfl

theorem pySplit_cons2 (pre mid rest : String) (hpre : ':' ∉ pre.data)
    (hmid : ':' ∉ mid.data) :
    pySplit (pre ++ ":" ++ mid ++ ":" ++ rest) ':' =
      pre :: mid :: (splitOnChar ':' rest.data).map (fun l => String.mk l) := by
  have hdata : (pre ++ ":" ++ mid ++ ":" ++ rest).data
      = pre.data ++ ':' :: (mid.data ++ ':' :: rest.data) := by
    simp [dataAppend, colonData]
  unfold pySplit
  rw [hdata, splitOnChar_append ':' pre.data _ hpre,
      splitOnChar_append ':' mid.data _ hmid]
  rfl

theorem pySplit_triple (pre mid post : String) (hpre : ':' ∉ pre.data)
    (hmid : ':' ∉ mid.data) (hpost : ':' ∉ post.data) :
    pySplit (pre ++ ":" ++ mid ++ ":" ++ post) ':' = [pre, mid, post] := by
  rw [pySplit_cons2 pre mid post hpre hmid,
      splitOnChar_of_not_mem ':' post.data hpost]
  rfl

theorem pyStartsWith_of_data (s pre : String) (rest : List Char)
    (hdata : s.data = pre.data ++ rest) : pyStartsWith s pre = true := by
  unfold pyStartsWith
  rw [hdata]
  exact isPrefixL_self_append pre.data rest

theorem mem_upsert {α β : Type} [DecidableEq α] {m : List (α × β)}
    {k k' : α} {v v' : β} (h : (k', v') ∈ upsert m k v) :
    v' = v ∨ (k', v') ∈ m := by
  by_cases hc : m.any (fun kv => kv.1 = k)
  · simp only [upsert, if_pos hc] at h
    rcases List.mem_map.mp h with ⟨kv, hkv, heq⟩
    by_cases hk : kv.1 = k
    · rw [if_pos hk] at heq
      exact Or.inl (congrArg Prod.snd heq).symm
    · rw [if_neg hk] at heq
      exact Or.inr (heq ▸ hkv)
  · simp only [upsert, if_neg hc, List.mem_append, List.mem_singleton] at h
    rcases h with h1 | h1
    · exact Or.inr h1
    · exact Or.inl (congrArg Prod.snd h1)

/-! ## Claim theorems -/

/-- C1.  The claim says `get_new_sms` issues setStatus(status=3) and
then re-queries the activation status exactly once, returning the code.
The code does issue the setStatus(3) call, but the follow-up
`self.get_sms(activation_id, timeout=timeout, interval=interval)`
(client.py line 166) passes keyword arguments that
`get_sms(self, activation_id)` (line 141) does not accept, so Python
raises `TypeError` there: no status re-query ever happens and no code is
ever returned.  This theorem evaluates the embedded code at a concrete
failing input: the trace holds only the setStatus call and the outcome
is the `TypeError`. -/
theorem claim_C1_get_new_sms_type_error :
    get_new_sms t_ok "12345" =
      (.error (.typeError "get_sms() got an unexpected keyword argument timeout"),
       [⟨"setStatus", [("id", "12345"), ("status", "3")]⟩]) := by
  decide

/-- C3.  Confirmed: whatever the action and parameters, if the response
body contains any of the six vendor error tokens anywhere as a
substring, `_request` fails with the vendor error carrying the raw
text. -/
theorem claim_C3_vendor_error_scan (t : Transport) (action : String)
    (params : List (String × String)) (tok : String)
    (htok : tok ∈ errorTokens) (hsub : strContains (t action params) tok = true) :
    request t action params =
      (.error (.vendorError (t action params)), [⟨action, params⟩]) := by
  unfold request checkErrors
  rw [if_pos (List.any_eq_true.mpr ⟨tok, htok, hsub⟩)]

/-- Witness for C3 at the test suite's input: a bare `BAD_KEY` body
fails a `getBalance` request with the vendor error. -/
theorem claim_C3_witness :
    "BAD_KEY" ∈ errorTokens ∧ strContains "BAD_KEY" "BAD_KEY" = true ∧
    request t_bad_key "getBalance" [] =
      (.error (.vendorError "BAD_KEY"), [⟨"getBalance", []⟩]) :=
  ⟨by decide, by decide,
   claim_C3_vendor_error_scan t_bad_key "getBalance" [] "BAD_KEY" (by decide) (by decide)⟩

/-- C9.  Confirmed: when a non-empty operator is supplied together with
a country other than 73, the operator sent to the vendor is the literal
`"any"`; the caller's operator goes out unchanged exactly when country
is 73 or country is omitted. -/
theorem claim_C9_operator_rewrite :
    (∀ (svc op : String) (c : ℤ), op ≠ "" → c ≠ 73 →
      lookupParam (get_number_params svc (some c) (some op)) "operator" = some "any") ∧
    (∀ (svc op : String), op ≠ "" →
      lookupParam (get_number_params svc (some 73) (some op)) "operator" = some op) ∧
    (∀ (svc op : String), op ≠ "" →
      lookupParam (get_number_params svc none (some op)) "operator" = some op) := by
  refine ⟨?_, ?_, ?_⟩
  · intro svc op c hop hc
    simp [get_number_params, lookupParam, hop, hc]
  · intro svc op hop
    simp [get_number_params, lookupParam, hop]
  · intro svc op hop
    simp [get_number_params, lookupParam, hop]

/-- Witness for C9: operator `beeline` with country 5 goes out as
`any`; with country 73 or no country it goes out unchanged. -/
theorem claim_C9_witness :
    ("beeline" ≠ "" ∧ (5 : ℤ) ≠ 73) ∧
    lookupParam (get_number_params "tg" (some 5) (some "beeline")) "operator" = some "any" ∧
    lookupParam (get_number_params "tg" (some 73) (some "beeline")) "operator" = some "beeline" ∧
    lookupParam (get_number_params "tg" none (some "beeline")) "operator" = some "beeline" :=
  ⟨⟨by decide, by decide⟩,
   claim_C9_operator_rewrite.1 "tg" "beeline" 5 (by decide) (by decide),
   claim_C9_operator_rewrite.2.1 "tg" "beeline" (by decide),
   claim_C9_operator_rewrite.2.2 "tg" "beeline" (by decide)⟩

/-- C10.  Confirmed: `get_sms` performs exactly one `getStatus`
transport call (the trace is that singleton); it returns the parsed code
exactly when the parsed status is `STATUS_OK`, and returns `None` for
every other status (terminal, waiting, or unknown alike) without any
retry. -/
theorem claim_C10_get_sms_single_query (t : Transport) (aid : String)
    (hok : checkErrors (t "getStatus" [("id", aid)]) =
      .ok (t "getStatus" [("id", aid)])) :
    (get_sms t aid).2 = [⟨"getStatus", [("id", aid)]⟩] ∧
    ((parse_get_status (t "getStatus" [("id", aid)])).status = "STATUS_OK" →
      (get_sms t aid).1 = .ok (parse_get_status (t "getStatus" [("id", aid)])).code) ∧
    ((parse_get_status (t "getStatus" [("id", aid)])).status ≠ "STATUS_OK" →
      (get_sms t aid).1 = .ok none) := by
  have hred : get_sms t aid =
      (if (parse_get_status (t "getStatus" [("id", aid)])).status = "STATUS_OK" then
        (Except.ok (parse_get_status (t "getStatus" [("id", aid)])).code,
         [⟨"getStatus", [("id", aid)]⟩])
       else if (parse_get_status (t "getStatus" [("id", aid)])).status ∈
           ["STATUS_CANCEL", "NO_ACTIVATION", "ACCESS_CANCEL"] then
        (Except.ok none, [⟨"getStatus", [("id", aid)]⟩])
       else (Except.ok none, [⟨"getStatus", [("id", aid)]⟩])) := by
    unfold get_sms get_status request
    rw [hok]
  refine ⟨?_, ?_, ?_⟩
  · rw [hred]
    split
    · rfl
    · split <;> rfl
  · intro hst
    rw [hred, if_pos hst]
  · intro hst
    rw [hred, if_neg hst]
    split <;> rfl

/-- Witness for C10 at the test suite's status response
`STATUS_OK:123456`. -/
theorem claim_C10_witness :
    checkErrors "STATUS_OK:123456" = .ok "STATUS_OK:123456" ∧
    (get_sms t_status_ok "12345").2 = [⟨"getStatus", [("id", "12345")]⟩] ∧
    (get_sms t_status_ok "12345").1 = .ok (some "123456") :=
  ⟨by decide,
   (claim_C10_get_sms_single_query t_status_ok "12345" (by decide)).1,
   (claim_C10_get_sms_single_query t_status_ok "12345" (by decide)).2.1 (by decide)⟩

/-- C4.  Confirmed: for colon-free id and phone, parsing
`ACCESS_NUMBER:<id>:<phone>` yields exactly that id and phone; a
response that does not carry the `ACCESS_NUMBER` prefix (the
`str.startswith` check of the source, which is the reading of "whose
prefix is any string other than ACCESS_NUMBER") fails with the
ParseError. -/
theorem claim_C4_number_parse :
    (∀ svc i ph : String, ':' ∉ i.data → ':' ∉ ph.data →
      parse_get_number svc ("ACCESS_NUMBER" ++ ":" ++ i ++ ":" ++ ph) =
        .ok { activation_id := i, phone_number := ph, service := svc }) ∧
    (∀ svc resp : String, pyStartsWith resp "ACCESS_NUMBER" = false →
      parse_get_number svc resp =
        .error (.parseError ("Error getting number: " ++ resp))) := by
  constructor
  · intro svc i ph hi hph
    have hdata : ("ACCESS_NUMBER" ++ ":" ++ i ++ ":" ++ ph).data
        = "ACCESS_NUMBER".data ++ (':' :: (i.data ++ ':' :: ph.data)) := by
      simp [dataAppend, colonData]
    have hpref := pyStartsWith_of_data _ "ACCESS_NUMBER" _ hdata
    have hsplit := pySplit_triple "ACCESS_NUMBER" i ph (by decide) hi hph
    unfold parse_get_number
    rw [hpref]
    simp only [if_true]
    rw [hsplit]
    rfl
  · intro svc resp hpref
    unfold parse_get_number
    rw [hpref]
    rfl

/-- Witness for C4 at the test suite's inputs. -/
theorem claim_C4_witness :
    (':' ∉ "12345".data ∧ ':' ∉ "79991234567".data ∧
      parse_get_number "tg" ("ACCESS_NUMBER" ++ ":" ++ "12345" ++ ":" ++ "79991234567") =
        .ok { activation_id := "12345", phone_number := "79991234567", service := "tg" }) ∧
    (pyStartsWith "NO_NUMBERS" "ACCESS_NUMBER" = false ∧
      parse_get_number "tg" "NO_NUMBERS" =
        .error (.parseError ("Error getting number: " ++ "NO_NUMBERS"))) :=
  ⟨⟨by decide, by decide,
    claim_C4_number_parse.1 "tg" "12345" "79991234567" (by decide) (by decide)⟩,
   ⟨by decide, claim_C4_number_parse.2 "tg" "NO_NUMBERS" (by decide)⟩⟩

/-- C2.  Confirmed: on a successful `ACCESS_NUMBER:<id>:<phone>`
response to `getExtraActivation`, `reactivation_number` makes exactly
two transport calls — the `getExtraActivation` first, then a `setStatus`
with status 1 for the new id — and returns the activation with exactly
that id and phone. -/
theorem claim_C2_reactivation_two_calls (t : Transport) (aid nid phone : String)
    (hresp : t "getExtraActivation" [("activationId", aid)] =
      "ACCESS_NUMBER" ++ ":" ++ nid ++ ":" ++ phone)
    (hn : ':' ∉ nid.data) (hp : ':' ∉ phone.data)
    (hok1 : checkErrors ("ACCESS_NUMBER" ++ ":" ++ nid ++ ":" ++ phone) =
      .ok ("ACCESS_NUMBER" ++ ":" ++ nid ++ ":" ++ phone))
    (hok2 : checkErrors (t "setStatus" [("id", nid), ("status", "1")]) =
      .ok (t "setStatus" [("id", nid), ("status", "1")])) :
    reactivation_number t aid =
      (.ok { activation_id := nid, phone_number := phone, service := "reactivation" },
       [⟨"getExtraActivation", [("activationId", aid)]⟩,
        ⟨"setStatus", [("id", nid), ("status", "1")]⟩]) := by
  have hdata : ("ACCESS_NUMBER" ++ ":" ++ nid ++ ":" ++ phone).data
      = "ACCESS_NUMBER".data ++ (':' :: (nid.data ++ ':' :: phone.data)) := by
    simp [dataAppend, colonData]
  have hpref := pyStartsWith_of_data _ "ACCESS_NUMBER" _ hdata
  have hsplit := pySplit_triple "ACCESS_NUMBER" nid phone (by decide) hn hp
  have hone : toString (1 : ℤ) = "1" := rfl
  unfold reactivation_number active_status set_status request
  rw [hresp, hok1]
  simp only []
  rw [hpref]
  simp only [if_true]
  rw [hsplit]
  simp only [List.get?]
  rw [hone, hok2]
  rfl

/-- Witness for C2 at the test suite's reactivation scenario. -/
theorem claim_C2_witness :
    (t_react "getExtraActivation" [("activationId", "12345")] =
      "ACCESS_NUMBER" ++ ":" ++ "67890" ++ ":" ++ "79990000000") ∧
    checkErrors ("ACCESS_NUMBER" ++ ":" ++ "67890" ++ ":" ++ "79990000000") =
      .ok ("ACCESS_NUMBER" ++ ":" ++ "67890" ++ ":" ++ "79990000000") ∧
    reactivation_number t_react "12345" =
      (.ok { activation_id := "67890", phone_number := "79990000000",
             service := "reactivation" },
       [⟨"getExtraActivation", [("activationId", "12345")]⟩,
        ⟨"setStatus", [("id", "67890"), ("status", "1")]⟩]) :=
  ⟨by decide, by decide,
   claim_C2_reactivation_two_calls t_react "12345" "67890" "79990000000"
     (by decide) (by decide) (by decide) (by decide) (by decide)⟩

/-- C5, counterexample.  The claim says parsing fails whenever the text
after the first colon is not a valid number.  For the response
`ACCESS_BALANCE:1:x` the text after the first colon is `1:x`, which is
not a valid number (first conjunct) — yet the code takes
`response.split(":")[1]`, i.e. only the segment between the first and
second colon (`"1"`), and succeeds with amount 1. -/
theorem claim_C5_counterexample :
    pyFloat "1:x" = none ∧
    parse_get_balance "ACCESS_BALANCE:1:x" = .ok { amount := 1 } := by
  decide

/-- C5, amended: the amount is parsed from `response.split(":")[1]` —
the segment between the first and second colon (which equals the whole
tail when the response holds a single colon) — with the exact
decimal-precision round trip; parsing fails with ParseError when no
colon is present or when that segment is not a valid number. -/
theorem claim_C5_amended :
    (∀ (s : String) (q : ℚ), pyFloat s = some q → ':' ∉ s.data →
      parse_get_balance ("ACCESS_BALANCE" ++ ":" ++ s) = .ok { amount := q }) ∧
    (∀ s : String, ':' ∉ s.data →
      parse_get_balance s =
        .error (.parseError ("Unexpected balance response: " ++ s))) ∧
    (∀ pre mid : String, ':' ∉ pre.data → ':' ∉ mid.data → pyFloat mid = none →
      parse_get_balance (pre ++ ":" ++ mid) =
        .error (.parseError ("could not convert string to float: " ++ mid))) ∧
    (∀ pre mid rest : String, ':' ∉ pre.data → ':' ∉ mid.data → pyFloat mid = none →
      parse_get_balance (pre ++ ":" ++ mid ++ ":" ++ rest) =
        .error (.parseError ("could not convert string to float: " ++ mid))) := by
  refine ⟨?_, ?_, ?_, ?_⟩
  · intro s q hq hs
    have hdata : ("ACCESS_BALANCE" ++ ":" ++ s).data
        = "ACCESS_BALANCE".data ++ ':' :: s.data := by
      simp [dataAppend, colonData]
    have hmem : ':' ∈ ("ACCESS_BALANCE" ++ ":" ++ s).data := by
      rw [hdata]; simp
    have hsplit := pySplit_double "ACCESS_BALANCE" s (by decide) hs
    unfold parse_get_balance
    rw [if_pos hmem, hsplit]
    simp only [List.get?]
    rw [hq]
  · intro s hs
    unfold parse_get_balance
    rw [if_neg hs]
  · intro pre mid hpre hmid hbad
    have hdata : (pre ++ ":" ++ mid).data = pre.data ++ ':' :: mid.data := by
      simp [dataAppend, colonData]
    have hmem : ':' ∈ (pre ++ ":" ++ mid).data := by
      rw [hdata]; simp
    have hsplit := pySplit_double pre mid hpre hmid
    unfold parse_get_balance
    rw [if_pos hmem, hsplit]
    simp only [List.get?]
    rw [hbad]
  · intro pre mid rest hpre hmid hbad
    have hdata : (pre ++ ":" ++ mid ++ ":" ++ rest).data
        = pre.data ++ ':' :: (mid.data ++ ':' :: rest.data) := by
      simp [dataAppend, colonData]
    have hmem : ':' ∈ (pre ++ ":" ++ mid ++ ":" ++ rest).data := by
      rw [hdata]; simp
    have hsplit := pySplit_cons2 pre mid rest hpre hmid
    unfold parse_get_balance
    rw [if_pos hmem, hsplit]
    simp only [List.get?]
    rw [hbad]

/-- Witness for C5 amended at the test suite's balance response and at
the counterexample-shaped inputs. -/
theorem claim_C5_witness :
    (pyFloat "100.50" = some (mkRat 201 2) ∧ ':' ∉ "100.50".data ∧
      parse_get_balance ("ACCESS_BALANCE" ++ ":" ++ "100.50") =
        .ok { amount := mkRat 201 2 }) ∧
    (':' ∉ "no colon here".data ∧
      parse_get_balance "no colon here" =
        .error (.parseError ("Unexpected balance response: " ++ "no colon here"))) ∧
    (pyFloat "abc" = none ∧
      parse_get_balance ("ACCESS_BALANCE" ++ ":" ++ "abc") =
        .error (.parseError ("could not convert string to float: " ++ "abc"))) ∧
    (pyFloat "x" = none ∧
      parse_get_balance ("ACCESS_BALANCE" ++ ":" ++ "x" ++ ":" ++ "9") =
        .error (.parseError ("could not convert string to float: " ++ "x"))) :=
  ⟨⟨by decide, by decide,
    claim_C5_amended.1 "100.50" (mkRat 201 2) (by decide) (by decide)⟩,
   ⟨by decide, claim_C5_amended.2.1 "no colon here" (by decide)⟩,
   ⟨by decide,
    claim_C5_amended.2.2.1 "ACCESS_BALANCE" "abc" (by decide) (by decide) (by decide)⟩,
   ⟨by decide,
    claim_C5_amended.2.2.2 "ACCESS_BALANCE" "x" "9" (by decide) (by decide) (by decide)⟩⟩

/-- C7, counterexample.  The claim says every provider name whose
normalized form is not in the registry fails with the
UnknownProviderError listing all known names.  The name `"-"`
normalizes to the empty string, which is not in the registry, yet
resolution fails with the MissingProviderError branch
("Could not identify provider", api.py line 67) instead — the empty
key is falsy in Python and never reaches the registry lookup. -/
theorem claim_C7_counterexample :
    normalizeProvider "-" = "" ∧
    "" ∉ providers.map (fun kv => kv.1) ∧
    getClientResolve (some "-") none = .error .missingProvider ∧
    (Except.error ApiError.missingProvider : Except ApiError ProviderClass) ≠
      .error (.unknownProvider "" (providers.map (fun kv => kv.1))) := by
  decide

/-- C7, amended: a provider name whose normalized form is non-empty and
not in the registry fails with UnknownProviderError listing all known
names; a name whose normalized form is empty fails with
MissingProviderError instead; no name and no URL fails with
MissingProviderError (resolution is a pure function of the two
arguments, so no network is involved); a URL matching no known pattern
resolves to the SMSHub profile. -/
theorem claim_C7_amended :
    (∀ (p : String) (u : Option String), p ≠ "" → normalizeProvider p ≠ "" →
      normalizeProvider p ∉ providers.map (fun kv => kv.1) →
      getClientResolve (some p) u =
        .error (.unknownProvider (normalizeProvider p) (providers.map (fun kv => kv.1)))) ∧
    (getClientResolve none none = .error .missingProvider) ∧
    (∀ (p : String) (u : Option String), p ≠ "" → normalizeProvider p = "" →
      getClientResolve (some p) u = .error .missingProvider) ∧
    (∀ u : String, u ≠ "" →
      (∀ pu ∈ urlPatterns, strContains (pyLower u) pu.1 = false) →
      getClientResolve none (some u) = .ok .smshub) := by
  refine ⟨?_, rfl, ?_, ?_⟩
  · intro p u hp hne hmem
    have hfind : providers.find? (fun kv => kv.1 = normalizeProvider p) = none := by
      rw [List.find?_eq_none]
      intro kv hkv
      simp only [decide_eq_true_eq]
      intro heq
      exact hmem (heq ▸ List.mem_map_of_mem (fun kv => kv.1) hkv)
    unfold getClientResolve
    simp only [if_pos hp, if_neg hne, hfind, Option.map_none]
    rfl
  · intro p u hp h0
    unfold getClientResolve
    simp only [if_pos hp, h0, if_pos rfl]
    simp
  · intro u hu hpat
    have hfind : urlPatterns.find? (fun pu => strContains (pyLower u) pu.1) = none := by
      rw [List.find?_eq_none]
      intro pu hpu
      simp [hpat pu hpu]
    unfold getClientResolve matchUrl
    simp only [if_neg hu, hfind]
    rfl

/-- Witness for C7 amended: the unknown name `plumbus`, the
missing-provider case, the empty-normalization name `"_"`, and the
unmatched URL `https://example.com/api`. -/
theorem claim_C7_witness :
    ("plumbus" ≠ "" ∧ normalizeProvider "plumbus" ≠ "" ∧
      normalizeProvider "plumbus" ∉ providers.map (fun kv => kv.1) ∧
      getClientResolve (some "plumbus") none =
        .error (.unknownProvider (normalizeProvider "plumbus")
          (providers.map (fun kv => kv.1)))) ∧
    getClientResolve none none = .error .missingProvider ∧
    ("_" ≠ "" ∧ normalizeProvider "_" = "" ∧
      getClientResolve (some "_") none = .error .missingProvider) ∧
    ("https://example.com/api" ≠ "" ∧
      (∀ pu ∈ urlPatterns, strContains (pyLower "https://example.com/api") pu.1 = false) ∧
      getClientResolve none (some "https://example.com/api") = .ok .smshub) :=
  ⟨⟨by decide, by decide, by decide,
    claim_C7_amended.1 "plumbus" none (by decide) (by decide) (by decide)⟩,
   claim_C7_amended.2.1,
   ⟨by decide, by decide,
    claim_C7_amended.2.2.1 "_" none (by decide) (by decide)⟩,
   ⟨by decide, by decide,
    claim_C7_amended.2.2.2 "https://example.com/api" (by decide) (by decide)⟩⟩

theorem cx_v2_spec : ∀ (fields : List (String × JVal)) (ps0 : List ℚ) (t0 : ℤ)
    (ps : List ℚ) (cs : List ℤ),
    fields.mapM (fun kv => pyFloat kv.1) = some ps →
    fields.mapM (fun kv => pyIntVal kv.2) = some cs →
    cx_v2 fields ps0 t0 = .ok (ps0 ++ ps, t0 + cs.sum) := by
  intro fields
  induction fields with
  | nil =>
    intro ps0 t0 ps cs h1 h2
    simp only [List.mapM_nil, pure, Option.some.injEq] at h1 h2
    subst h1
    subst h2
    simp [cx_v2]
  | cons kv rest ih =>
    obtain ⟨k, v⟩ := kv
    intro ps0 t0 ps cs h1 h2
    rw [List.mapM_cons] at h1 h2
    cases hf : pyFloat k with
    | none => rw [hf] at h1; simp at h1
    | some p =>
      rw [hf] at h1
      cases hrest : List.mapM (fun kv => pyFloat kv.1) rest with
      | none => rw [hrest] at h1; simp at h1
      | some tailp =>
        rw [hrest] at h1
        simp only [Option.bind_some, Option.bind_eq_bind, Option.some_bind,
          pure, Option.some.injEq] at h1
        cases hc : pyIntVal v with
        | none => rw [hc] at h2; simp at h2
        | some c =>
          rw [hc] at h2
          cases hcrest : List.mapM (fun kv => pyIntVal kv.2) rest with
          | none => rw [hcrest] at h2; simp at h2
          | some tailc =>
            rw [hcrest] at h2
            simp only [Option.bind_some, Option.bind_eq_bind, Option.some_bind,
              pure, Option.some.injEq] at h2
            subst h1
            subst h2
            simp only [cx_v2, hf, hc]
            rw [ih (ps0 ++ [p]) (t0 + c) tailp tailc hrest hcrest]
            simp [List.append_assoc, add_assoc]

theorem cx_v3_spec : ∀ (vals : List JVal) (objs : List (List (String × JVal)))
    (ps0 : List ℚ) (t0 : ℤ) (ps : List ℚ) (cs : List ℤ),
    vals.mapM objFields = some objs →
    objs.mapM (fun f => pyFloatVal (getD f "price" (.num 0))) = some ps →
    objs.mapM (fun f => pyIntVal (getD f "count" (.num 0))) = some cs →
    cx_v3 vals ps0 t0 = .ok (ps0 ++ ps, t0 + cs.sum) := by
  intro vals
  induction vals with
  | nil =>
    intro objs ps0 t0 ps cs h0 h1 h2
    simp only [List.mapM_nil, pure, Option.some.injEq] at h0
    subst h0
    simp only [List.mapM_nil, pure, Option.some.injEq] at h1 h2
    subst h1
    subst h2
    simp [cx_v3]
  | cons pd rest ih =>
    intro objs ps0 t0 ps cs h0 h1 h2
    rw [List.mapM_cons] at h0
    cases hobj : objFields pd with
    | none => rw [hobj] at h0; simp at h0
    | some f =>
      rw [hobj] at h0
      cases hrest0 : List.mapM objFields rest with
      | none => rw [hrest0] at h0; simp at h0
      | some tailf =>
        rw [hrest0] at h0
        simp only [Option.bind_some, Option.bind_eq_bind, Option.some_bind,
          pure, Option.some.injEq] at h0
        subst h0
        rw [List.mapM_cons] at h1 h2
        cases hf : pyFloatVal (getD f "price" (.num 0)) with
        | none => rw [hf] at h1; simp at h1
        | some p =>
          rw [hf] at h1
          cases hrest : List.mapM (fun f => pyFloatVal (getD f "price" (.num 0))) tailf with
          | none => rw [hrest] at h1; simp at h1
          | some tailp =>
            rw [hrest] at h1
            simp only [Option.bind_some, Option.bind_eq_bind, Option.some_bind,
              pure, Option.some.injEq] at h1
            cases hc : pyIntVal (getD f "count" (.num 0)) with
            | none => rw [hc] at h2; simp at h2
            | some c =>
              rw [hc] at h2
              cases hcrest : List.mapM (fun f => pyIntVal (getD f "count" (.num 0))) tailf with
              | none => rw [hcrest] at h2; simp at h2
              | some tailc =>
                rw [hcrest] at h2
                simp only [Option.bind_some, Option.bind_eq_bind, Option.some_bind,
                  pure, Option.some.injEq] at h2
                subst h1
                subst h2
                cases pd with
                | obj pf =>
                  have hpf : pf = f := by
                    simpa [objFields] using hobj
                  subst hpf
                  simp only [cx_v3, hf, hc]
                  rw [ih tailf (ps0 ++ [p]) (t0 + c) tailp tailc hrest0 hrest hcrest]
                  simp [List.append_assoc, add_assoc]
                | num q => simp [objFields] at hobj
                | str s => simp [objFields] at hobj
                | bool b => simp [objFields] at hobj
                | null => simp [objFields] at hobj
                | arr items => simp [objFields] at hobj

theorem cx_service_spec (srv : String) (ps : List ℚ) (total : ℤ)
    (sp : ServicePrice) (h : cx_service srv ps total = some sp) :
    sp.service = srv ∧ sp.count = total ∧
    ∃ qs : List ℚ, qs.Perm ps ∧ qs.Sorted (fun a b => a ≤ b) ∧ qs ≠ [] ∧
      sp.cost = (if 1 < qs.length then Cost.listC qs else Cost.scalar (qs.headD 0)) ∧
      sp.min_price = qs.headD 0 ∧ sp.max_price = qs.getLastD 0 := by
  unfold cx_service at h
  by_cases hps : ps.isEmpty
  · rw [if_pos hps] at h
    cases h
  · rw [if_neg hps] at h
    have hsp := (Option.some.injEq _ _).mp h
    subst hsp
    refine ⟨rfl, rfl, sortAsc ps, sortAsc_perm ps, sortAsc_sorted ps, ?_, rfl, rfl, rfl⟩
    have hlen : (sortAsc ps).length = ps.length := (sortAsc_perm ps).length_eq
    intro hnil
    rw [List.isEmpty_eq_true] at hps
    · exact hps (List.length_eq_zero.mp (by rw [← hlen, hnil, List.length_nil]))

theorem cx_countries_nonempty (version : String) :
    ∀ (cl : List (String × JVal)) (l : List CountryPrices),
    cx_countries version cl = .ok l → ∀ cp ∈ l, cp.services ≠ [] := by
  intro cl
  induction cl with
  | nil =>
    intro l h cp hcp
    simp only [cx_countries, Except.ok.injEq] at h
    subst h
    cases hcp
  | cons kv rest ih =>
    obtain ⟨cid, services⟩ := kv
    intro l h cp hcp
    unfold cx_countries at h
    cases services with
    | obj sfields =>
      simp only at h
      cases hsv : cx_services version sfields [] with
      | error e => rw [hsv] at h; cases h
      | ok smap =>
        rw [hsv] at h
        simp only at h
        by_cases hne : smap.isEmpty
        · rw [if_neg (by simp [hne])] at h
          exact ih l h cp hcp
        · rw [if_pos (by simp [hne])] at h
          cases hint : pyIntOfString cid with
          | none => rw [hint] at h; cases h
          | some c =>
            rw [hint] at h
            cases hrest : cx_countries version rest with
            | error e => rw [hrest] at h; cases h
            | ok l2 =>
              rw [hrest] at h
              simp only [Except.ok.injEq] at h
              subst h
              rcases List.mem_cons.mp hcp with h1 | h1
              · subst h1
                simpa [List.isEmpty_eq_true] using hne
              · exact ih l2 hrest cp h1
    | num q => cases h
    | str s => cases h
    | bool b => cases h
    | null => cases h
    | arr items => cases h

/-- C6, counterexample.  The claim says the v2 cost list is the
distinct prices sorted ascending (so two keys with the same numeric
value would collapse, and a single distinct price would become a
scalar).  For `{"0": {"tg": {"10": 5, "10.0": 3}}}` the two distinct
keys `"10"` and `"10.0"` parse to the same number 10, and the code
keeps both: the produced cost is the two-element list `[10, 10]`
(dedup of which is `[10]`, i.e. exactly one distinct price), not the
scalar 10 the claim implies. -/
theorem claim_C6_counterexample :
    parse_complex_prices v2DupPrice "v2" = .ok [v2DupOut] ∧
    v2DupOut.services = [("tg",
      { service := "tg", cost := .listC [10, 10],
        min_price := 10, max_price := 10, count := 8 })] ∧
    ([(10 : ℚ), 10].dedup = [10]) ∧
    Cost.listC [10, 10] ≠ Cost.scalar 10 := by
  decide

/-- C6, amended: under v2 the derived cost list is all parsed price
keys in ascending order with duplicates retained (the keys are distinct
as strings, but distinct keys may parse to the same number), and count
is the sum of the counts; under v3 the derived list is all provider
prices, duplicates not deduplicated, sorted ascending, and count is the
sum of provider counts; in both versions, if the derived list has
exactly one element, cost is that scalar, otherwise cost is the full
sorted list; and a country/service combination producing zero prices is
dropped from the result. -/
theorem claim_C6_amended :
    (∀ (fields : List (String × JVal)) (ps : List ℚ) (cs : List ℤ),
      fields.mapM (fun kv => pyFloat kv.1) = some ps →
      fields.mapM (fun kv => pyIntVal kv.2) = some cs →
      complex_service_data "v2" fields = .ok (ps, cs.sum)) ∧
    (∀ (fields : List (String × JVal)) (objs : List (List (String × JVal)))
        (ps : List ℚ) (cs : List ℤ),
      (fields.map (fun kv => kv.2)).mapM objFields = some objs →
      objs.mapM (fun f => pyFloatVal (getD f "price" (.num 0))) = some ps →
      objs.mapM (fun f => pyIntVal (getD f "count" (.num 0))) = some cs →
      complex_service_data "v3" fields = .ok (ps, cs.sum)) ∧
    (∀ (srv : String) (ps : List ℚ) (total : ℤ) (sp : ServicePrice),
      cx_service srv ps total = some sp →
      sp.service = srv ∧ sp.count = total ∧
      ∃ qs : List ℚ, qs.Perm ps ∧ qs.Sorted (fun a b => a ≤ b) ∧ qs ≠ [] ∧
        sp.cost = (if 1 < qs.length then Cost.listC qs else Cost.scalar (qs.headD 0)) ∧
        sp.min_price = qs.headD 0 ∧ sp.max_price = qs.getLastD 0) ∧
    (∀ (srv : String) (total : ℤ), cx_service srv [] total = none) ∧
    (∀ (data : JVal) (version : String) (l : List CountryPrices),
      parse_complex_prices data version = .ok l → ∀ cp ∈ l, cp.services ≠ []) := by
  refine ⟨?_, ?_, cx_service_spec, ?_, ?_⟩
  · intro fields ps cs h1 h2
    unfold complex_service_data
    rw [if_pos rfl, cx_v2_spec fields [] 0 ps cs h1 h2]
    simp
  · intro fields objs ps cs h0 h1 h2
    unfold complex_service_data
    rw [if_neg (by decide),
      cx_v3_spec (fields.map (fun kv => kv.2)) objs [] 0 ps cs h0 h1 h2]
    simp
  · intro srv total
    rfl
  · intro data version l h cp hcp
    cases data with
    | obj countries => exact cx_countries_nonempty version countries l h cp hcp
    | num q => cases h
    | str s => cases h
    | bool b => cases h
    | null => cases h
    | arr items => cases h

/-- Witness for C6 amended at the spec's v2 and v3 example payloads. -/
theorem claim_C6_witness :
    ([("10.5", JVal.num 100), ("15.0", JVal.num 50)].mapM (fun kv => pyFloat kv.1) =
        some [mkRat 21 2, 15] ∧
      [("10.5", JVal.num 100), ("15.0", JVal.num 50)].mapM (fun kv => pyIntVal kv.2) =
        some [100, 50] ∧
      complex_service_data "v2" [("10.5", JVal.num 100), ("15.0", JVal.num 50)] =
        .ok ([mkRat 21 2, 15], ([100, 50] : List ℤ).sum)) ∧
    (complex_service_data "v3"
        [("prov1", .obj [("price", JVal.num 12), ("count", JVal.num 10)]),
         ("prov2", .obj [("price", JVal.num 15), ("count", JVal.num 5)])] =
      .ok ([12, 15], ([10, 5] : List ℤ).sum)) ∧
    (cx_service "tg" [15, mkRat 21 2] 150 = some cxSpExample ∧
      ∃ qs : List ℚ, qs.Perm [15, mkRat 21 2] ∧ qs.Sorted (fun a b => a ≤ b) ∧
        qs ≠ [] ∧
        cxSpExample.cost =
          (if 1 < qs.length then Cost.listC qs else Cost.scalar (qs.headD 0)) ∧
        cxSpExample.min_price = qs.headD 0 ∧ cxSpExample.max_price = qs.getLastD 0) ∧
    (parse_complex_prices v2DupPrice "v2" = .ok [v2DupOut] ∧
      v2DupOut ∈ [v2DupOut] ∧ v2DupOut.services ≠ []) :=
  ⟨⟨by decide, by decide,
    claim_C6_amended.1 [("10.5", JVal.num 100), ("15.0", JVal.num 50)]
      [mkRat 21 2, 15] [100, 50] (by decide) (by decide)⟩,
   claim_C6_amended.2.1
      [("prov1", .obj [("price", JVal.num 12), ("count", JVal.num 10)]),
       ("prov2", .obj [("price", JVal.num 15), ("count", JVal.num 5)])]
      [[("price", JVal.num 12), ("count", JVal.num 10)],
       [("price", JVal.num 15), ("count", JVal.num 5)]]
      [12, 15] [10, 5] rfl (by decide) (by decide),
   ⟨by decide,
    (claim_C6_amended.2.2.1 "tg" [15, mkRat 21 2] 150 cxSpExample (by decide)).2.2⟩,
   ⟨by decide, by decide,
    claim_C6_amended.2.2.2.2 v2DupPrice "v2" [v2DupOut] (by decide)
      v2DupOut (by decide)⟩⟩

theorem smapInv_nil : smapInv [] := by
  intro kv hkv
  cases hkv

theorem cmapInv_nil : cmapInv [] := by
  intro kv hkv
  cases hkv

theorem priceInvariant_scalar (srv : String) (b : ℚ) (c : ℤ) :
    priceInvariant { service := srv, cost := .scalar b, min_price := b,
                     max_price := b, count := c } := by
  constructor
  · intro p hp
    simp only [Cost.values, List.mem_singleton] at hp
    subst hp
    exact ⟨le_refl p, le_refl p⟩
  · intro p hp
    simp only [Cost.scalar.injEq] at hp
    subst hp
    exact ⟨rfl, rfl⟩

theorem priceInvariant_sorted (srv : String) (ps : List ℚ) (c : ℤ)
    (hs : ps.Sorted (fun a b => a ≤ b)) :
    priceInvariant { service := srv, cost := .listC ps, min_price := ps.headD 0,
                     max_price := ps.getLastD 0, count := c } := by
  constructor
  · intro p hp
    exact ⟨sorted_headD_le hs hp, sorted_le_getLastD ps hs p hp⟩
  · intro p hp
    exact Cost.noConfusion hp

theorem freePriceMapPrices_sorted (fields : List (String × JVal)) (prices : List ℚ)
    (h : freePriceMapPrices fields = .ok (some prices)) :
    prices.Sorted (fun a b => a ≤ b) := by
  unfold freePriceMapPrices at h
  cases hg : getOpt fields "freePriceMap" with
  | none => rw [hg] at h; simp at h
  | some v =>
    rw [hg] at h
    cases v with
    | obj fpm =>
      simp only at h
      by_cases hne : fpm.isEmpty
      · rw [if_neg (by simp [hne])] at h
        simp at h
      · rw [if_pos (by simp [hne])] at h
        cases hks : fpm.mapM (fun kv => pyFloat kv.1) with
        | none => rw [hks] at h; cases h
        | some ks =>
          rw [hks] at h
          simp only at h
          by_cases hs : (sortAsc ks).isEmpty
          · rw [if_neg (by simp [hs])] at h
            simp at h
          · rw [if_pos (by simp [hs])] at h
            simp only [Except.ok.injEq, Option.some.injEq] at h
            subst h
            exact sortAsc_sorted ks
    | num q => simp at h
    | str s => simp at h
    | bool b => simp at h
    | null => simp at h
    | arr items => simp at h

theorem std_service_entry_invariant (code : String)
    (fields : List (String × JVal)) (sp : ServicePrice)
    (h : std_service_entry code fields = .ok sp) : priceInvariant sp := by
  unfold std_service_entry at h
  cases hbase : pyFloatVal (pyOr (getD fields "cost" (.num 0)) (getD fields "price" (.num 0))) with
  | none => rw [hbase] at h; cases h
  | some base =>
    rw [hbase] at h
    cases hfpm : freePriceMapPrices fields with
    | error e => rw [hfpm] at h; cases h
    | ok fpm =>
      rw [hfpm] at h
      cases hcnt : pyIntVal (pyOr (getD fields "count" (.num 0)) (.num 0)) with
      | none => rw [hcnt] at h; cases h
      | some cnt =>
        rw [hcnt] at h
        cases fpm with
        | some prices =>
          simp only [Except.ok.injEq] at h
          subst h
          exact priceInvariant_sorted code prices cnt
            (freePriceMapPrices_sorted fields prices hfpm)
        | none =>
          simp only [Except.ok.injEq] at h
          subst h
          exact priceInvariant_scalar code base cnt

theorem tc_service_price_invariant (code : String)
    (fields : List (String × JVal)) (sp : ServicePrice)
    (h : tc_service_price code fields = .ok sp) : priceInvariant sp := by
  unfold tc_service_price at h
  cases hbase : pyFloatVal (pyOr (pyOr (getD fields "price" (.num 0))
      (getD fields "cost" (.num 0))) (.num 0)) with
  | none => rw [hbase] at h; cases h
  | some base =>
    rw [hbase] at h
    cases hfpm : freePriceMapPrices fields with
    | error e => rw [hfpm] at h; cases h
    | ok fpm =>
      rw [hfpm] at h
      cases hcnt : pyIntVal (pyOr (getD fields "count" (.num 0)) (.num 0)) with
      | none => rw [hcnt] at h; cases h
      | some cnt =>
        rw [hcnt] at h
        cases fpm with
        | some prices =>
          simp only [Except.ok.injEq] at h
          subst h
          exact priceInvariant_sorted code prices cnt
            (freePriceMapPrices_sorted fields prices hfpm)
        | none =>
          simp only [Except.ok.injEq] at h
          subst h
          exact priceInvariant_scalar code base cnt

theorem cx_service_invariant (srv : String) (ps : List ℚ) (total : ℤ)
    (sp : ServicePrice) (h : cx_service srv ps total = some sp) :
    priceInvariant sp := by
  rcases cx_service_spec srv ps total sp h with
    ⟨hsrv, hcnt, qs, hperm, hsort, hne, hcost, hmin, hmax⟩
  by_cases hq : 1 < qs.length
  · rw [if_pos hq] at hcost
    constructor
    · intro p hp
      rw [hcost] at hp
      simp only [Cost.values] at hp
      rw [hmin, hmax]
      exact ⟨sorted_headD_le hsort hp, sorted_le_getLastD qs hsort p hp⟩
    · intro p hp
      rw [hcost] at hp
      exact Cost.noConfusion hp
  · rw [if_neg hq] at hcost
    have hone : qs.length = 1 := by
      have := List.length_pos.mpr hne
      omega
    obtain ⟨x, hx⟩ := List.length_eq_one.mp hone
    subst hx
    constructor
    · intro p hp
      rw [hcost] at hp
      simp only [Cost.values, List.headD, List.mem_singleton] at hp
      subst hp
      rw [hmin, hmax]
      exact ⟨le_refl _, le_refl _⟩
    · intro p hp
      rw [hcost] at hp
      simp only [Cost.scalar.injEq] at hp
      subst hp
      rw [hmin, hmax]
      exact ⟨rfl, rfl⟩

theorem smapInv_upsert {m : List (String × ServicePrice)} {k : String}
    {sp : ServicePrice} (hm : smapInv m) (hsp : priceInvariant sp) :
    smapInv (upsert m k sp) := by
  intro kv hkv
  obtain ⟨k2, v2⟩ := kv
  rcases mem_upsert hkv with h1 | h1
  · rw [h1]
    exact hsp
  · exact hm (k2, v2) h1

theorem std_services_inv : ∀ (fields : List (String × JVal))
    (m m' : List (String × ServicePrice)),
    std_services fields m = .ok m' → smapInv m → smapInv m' := by
  intro fields
  induction fields with
  | nil =>
    intro m m' h hm
    simp only [std_services, Except.ok.injEq] at h
    subst h
    exact hm
  | cons kv rest ih =>
    obtain ⟨code, data⟩ := kv
    intro m m' h hm
    unfold std_services at h
    cases data with
    | obj f =>
      simp only at h
      cases hse : std_service_entry code f with
      | error e => rw [hse] at h; cases h
      | ok sp =>
        rw [hse] at h
        exact ih _ _ h (smapInv_upsert hm (std_service_entry_invariant code f sp hse))
    | num q => exact ih _ _ h hm
    | str s => exact ih _ _ h hm
    | bool b => exact ih _ _ h hm
    | null => exact ih _ _ h hm
    | arr items => exact ih _ _ h hm

theorem std_countries_inv : ∀ (cl : List (String × JVal)) (l : List CountryPrices),
    std_countries cl = .ok l → ∀ cp ∈ l, smapInv cp.services := by
  intro cl
  induction cl with
  | nil =>
    intro l h cp hcp
    simp only [std_countries, Except.ok.injEq] at h
    subst h
    cases hcp
  | cons kv rest ih =>
    obtain ⟨cid, services⟩ := kv
    intro l h cp hcp
    unfold std_countries at h
    cases services with
    | obj svc_fields =>
      simp only at h
      cases hsv : std_services svc_fields [] with
      | error e => rw [hsv] at h; cases h
      | ok smap =>
        rw [hsv] at h
        simp only at h
        by_cases hne : smap.isEmpty
        · rw [if_neg (by simp [hne])] at h
          exact ih l h cp hcp
        · rw [if_pos (by simp [hne])] at h
          cases hint : pyIntOfString cid with
          | none => rw [hint] at h; cases h
          | some c =>
            rw [hint] at h
            cases hrest : std_countries rest with
            | error e => rw [hrest] at h; cases h
            | ok l2 =>
              rw [hrest] at h
              simp only [Except.ok.injEq] at h
              subst h
              rcases List.mem_cons.mp hcp with h1 | h1
              · subst h1
                exact std_services_inv svc_fields [] smap hsv smapInv_nil
              · exact ih l2 hrest cp h1
    | num q => exact ih l h cp hcp
    | str s => exact ih l h cp hcp
    | bool b => exact ih l h cp hcp
    | null => exact ih l h cp hcp
    | arr items => exact ih l h cp hcp

theorem parse_prices_data_inv (data : JVal) (l : List CountryPrices)
    (h : parse_prices_data data = .ok l) : ∀ cp ∈ l, smapInv cp.services := by
  unfold parse_prices_data at h
  cases data with
  | obj fields => exact std_countries_inv fields l h
  | arr items =>
    cases items with
    | nil =>
      have h2 := Except.ok.inj h
      subst h2
      intro cp hcp
      cases hcp
    | cons x rest =>
      cases x with
      | obj f => exact std_countries_inv f l h
      | num q => have h2 := Except.ok.inj h; subst h2; intro cp hcp; cases hcp
      | str s => have h2 := Except.ok.inj h; subst h2; intro cp hcp; cases hcp
      | bool b => have h2 := Except.ok.inj h; subst h2; intro cp hcp; cases hcp
      | null => have h2 := Except.ok.inj h; subst h2; intro cp hcp; cases hcp
      | arr i2 => have h2 := Except.ok.inj h; subst h2; intro cp hcp; cases hcp
  | num q => have h2 := Except.ok.inj h; subst h2; intro cp hcp; cases hcp
  | str s => have h2 := Except.ok.inj h; subst h2; intro cp hcp; cases hcp
  | bool b => have h2 := Except.ok.inj h; subst h2; intro cp hcp; cases hcp
  | null => have h2 := Except.ok.inj h; subst h2; intro cp hcp; cases hcp

theorem cmSet_inv {m : CMap} {cid : ℤ} {srv : String} {sp : ServicePrice}
    (hm : cmapInv m) (hsp : priceInvariant sp) : cmapInv (cmSet m cid srv sp) := by
  intro kv hkv
  rcases List.mem_map.mp hkv with ⟨kv0, hkv0, heq⟩
  by_cases hc : kv0.1 = cid
  · rw [if_pos hc] at heq
    subst heq
    exact smapInv_upsert (hm kv0 hkv0) hsp
  · rw [if_neg hc] at heq
    subst heq
    exact hm kv0 hkv0

theorem cmapInv_ensure {m : CMap} {cid : ℤ} (hm : cmapInv m) :
    cmapInv (if m.any (fun kv => kv.1 = cid) then m else m ++ [(cid, [])]) := by
  split
  · exact hm
  · intro kv hkv
    rcases List.mem_append.mp hkv with h1 | h1
    · exact hm kv h1
    · simp only [List.mem_singleton] at h1
      subst h1
      exact smapInv_nil

theorem process_entry_inv (srv : String) (e : JVal) (m m' : CMap)
    (h : process_entry srv e m = .ok m') (hm : cmapInv m) : cmapInv m' := by
  unfold process_entry at h
  cases e with
  | obj fields =>
    simp only at h
    cases hg : getPy fields "country" with
    | none =>
      rw [hg] at h
      have h2 := Except.ok.inj h
      subst h2
      exact hm
    | some cval =>
      rw [hg] at h
      simp only at h
      cases hint : pyIntVal cval with
      | none => rw [hint] at h; cases h
      | some cid =>
        rw [hint] at h
        cases hsp : tc_service_price srv fields with
        | error er => rw [hsp] at h; cases h
        | ok sp =>
          rw [hsp] at h
          have h2 := Except.ok.inj h
          subst h2
          exact cmSet_inv (cmapInv_ensure hm) (tc_service_price_invariant srv fields sp hsp)
  | num q => cases h
  | str s => cases h
  | bool b => cases h
  | null => cases h
  | arr items => cases h

theorem tc_fold_inv (srv : String) (guarded : Bool) :
    ∀ (items : List JVal) (m m' : CMap),
    tc_fold srv guarded items m = .ok m' → cmapInv m → cmapInv m' := by
  intro items
  induction items with
  | nil =>
    intro m m' h hm
    have h2 := Except.ok.inj h
    subst h2
    exact hm
  | cons e rest ih =>
    intro m m' h hm
    unfold tc_fold at h
    cases e with
    | obj f =>
      simp only at h
      cases hpe : process_entry srv (.obj f) m with
      | error er => rw [hpe] at h; cases h
      | ok m2 =>
        rw [hpe] at h
        exact ih m2 m' h (process_entry_inv srv (.obj f) m m2 hpe hm)
    | num q =>
      cases guarded with
      | true => exact ih m m' h hm
      | false => cases h
    | str s =>
      cases guarded with
      | true => exact ih m m' h hm
      | false => cases h
    | bool b =>
      cases guarded with
      | true => exact ih m m' h hm
      | false => cases h
    | null =>
      cases guarded with
      | true => exact ih m m' h hm
      | false => cases h
    | arr i2 =>
      cases guarded with
      | true => exact ih m m' h hm
      | false => cases h

theorem tc_iter_inv (srv : String) (guarded : Bool) (entries : JVal)
    (m m' : CMap) (h : tc_iter srv guarded entries m = .ok m')
    (hm : cmapInv m) : cmapInv m' := by
  unfold tc_iter at h
  cases entries with
  | arr items => exact tc_fold_inv srv guarded items m m' h hm
  | obj fields => exact tc_fold_inv srv guarded (fields.map (fun kv => kv.2)) m m' h hm
  | num q => have h2 := Except.ok.inj h; subst h2; exact hm
  | str s => have h2 := Except.ok.inj h; subst h2; exact hm
  | bool b => have h2 := Except.ok.inj h; subst h2; exact hm
  | null => have h2 := Except.ok.inj h; subst h2; exact hm

theorem tc_srv_fold_inv : ∀ (fields : List (String × JVal)) (m m' : CMap),
    tc_srv_fold fields m = .ok m' → cmapInv m → cmapInv m' := by
  intro fields
  induction fields with
  | nil =>
    intro m m' h hm
    have h2 := Except.ok.inj h
    subst h2
    exact hm
  | cons kv rest ih =>
    obtain ⟨srv, entries⟩ := kv
    intro m m' h hm
    unfold tc_srv_fold at h
    cases hit : tc_iter srv false entries m with
    | error e => rw [hit] at h; cases h
    | ok m2 =>
      rw [hit] at h
      exact ih m2 m' h (tc_iter_inv srv false entries m m2 hit hm)

theorem tc_items_fold_inv : ∀ (items : List JVal) (m m' : CMap),
    tc_items_fold items m = .ok m' → cmapInv m → cmapInv m' := by
  intro items
  induction items with
  | nil =>
    intro m m' h hm
    have h2 := Except.ok.inj h
    subst h2
    exact hm
  | cons e rest ih =>
    intro m m' h hm
    unfold tc_items_fold at h
    cases e with
    | obj fields =>
      simp only at h
      cases hsf : tc_srv_fold fields m with
      | error er => rw [hsf] at h; cases h
      | ok m2 =>
        rw [hsf] at h
        exact ih m2 m' h (tc_srv_fold_inv fields m m2 hsf hm)
    | num q => exact ih m m' h hm
    | str s => exact ih m m' h hm
    | bool b => exact ih m m' h hm
    | null => exact ih m m' h hm
    | arr i2 => exact ih m m' h hm

theorem tc_noservice_inv (data : JVal) (m m' : CMap)
    (h : tc_noservice data m = .ok m') (hm : cmapInv m) : cmapInv m' := by
  unfold tc_noservice at h
  cases data with
  | arr items => exact tc_items_fold_inv items m m' h hm
  | obj fields => exact tc_srv_fold_inv fields m m' h hm
  | num q => have h2 := Except.ok.inj h; subst h2; exact hm
  | str s => have h2 := Except.ok.inj h; subst h2; exact hm
  | bool b => have h2 := Except.ok.inj h; subst h2; exact hm
  | null => have h2 := Except.ok.inj h; subst h2; exact hm

theorem tc_traverse_inv (service : Option String) (data : JVal) (m : CMap)
    (h : tc_traverse service data = .ok m) : cmapInv m := by
  unfold tc_traverse at h
  cases service with
  | none => exact tc_noservice_inv data [] m h cmapInv_nil
  | some s =>
    simp only at h
    by_cases hs : s = ""
    · rw [if_neg (by simp [hs])] at h
      exact tc_noservice_inv data [] m h cmapInv_nil
    · rw [if_pos hs] at h
      exact tc_iter_inv s true _ [] m h cmapInv_nil

theorem parse_top_countries_inv (service : Option String) (data : JVal)
    (l : List CountryPrices) (h : parse_top_countries service data = .ok l) :
    ∀ cp ∈ l, smapInv cp.services := by
  unfold parse_top_countries at h
  cases ht : tc_traverse service data with
  | error e => rw [ht] at h; cases h
  | ok m =>
    rw [ht] at h
    have h2 := Except.ok.inj h
    subst h2
    intro cp hcp
    rcases List.mem_map.mp hcp with ⟨kv, hkv, heq⟩
    subst heq
    exact tc_traverse_inv service data m ht kv hkv

theorem cx_services_inv (version : String) :
    ∀ (fields : List (String × JVal)) (m m' : List (String × ServicePrice)),
    cx_services version fields m = .ok m' → smapInv m → smapInv m' := by
  intro fields
  induction fields with
  | nil =>
    intro m m' h hm
    have h2 := Except.ok.inj h
    subst h2
    exact hm
  | cons kv rest ih =>
    obtain ⟨srv, sdata⟩ := kv
    intro m m' h hm
    unfold cx_services at h
    cases sdata with
    | obj f =>
      simp only at h
      cases hcd : complex_service_data version f with
      | error er => rw [hcd] at h; cases h
      | ok pt =>
        rw [hcd] at h
        simp only at h
        cases hcs : cx_service srv pt.1 pt.2 with
        | none =>
          rw [hcs] at h
          exact ih m m' h hm
        | some sp =>
          rw [hcs] at h
          exact ih _ m' h (smapInv_upsert hm (cx_service_invariant srv pt.1 pt.2 sp hcs))
    | num q => cases h
    | str s => cases h
    | bool b => cases h
    | null => cases h
    | arr items => cases h

theorem cx_countries_inv (version : String) :
    ∀ (cl : List (String × JVal)) (l : List CountryPrices),
    cx_countries version cl = .ok l → ∀ cp ∈ l, smapInv cp.services := by
  intro cl
  induction cl with
  | nil =>
    intro l h cp hcp
    have h2 := Except.ok.inj h
    subst h2
    cases hcp
  | cons kv rest ih =>
    obtain ⟨cid, services⟩ := kv
    intro l h cp hcp
    unfold cx_countries at h
    cases services with
    | obj sfields =>
      simp only at h
      cases hsv : cx_services version sfields [] with
      | error e => rw [hsv] at h; cases h
      | ok smap =>
        rw [hsv] at h
        simp only at h
        by_cases hne : smap.isEmpty
        · rw [if_neg (by simp [hne])] at h
          exact ih l h cp hcp
        · rw [if_pos (by simp [hne])] at h
          cases hint : pyIntOfString cid with
          | none => rw [hint] at h; cases h
          | some c =>
            rw [hint] at h
            cases hrest : cx_countries version rest with
            | error e => rw [hrest] at h; cases h
            | ok l2 =>
              rw [hrest] at h
              simp only [Except.ok.injEq] at h
              subst h
              rcases List.mem_cons.mp hcp with h1 | h1
              · subst h1
                exact cx_services_inv version sfields [] smap hsv smapInv_nil
              · exact ih l2 hrest cp h1
    | num q => cases h
    | str s => cases h
    | bool b => cases h
    | null => cases h
    | arr items => cases h

theorem parse_complex_prices_inv (data : JVal) (version : String)
    (l : List CountryPrices) (h : parse_complex_prices data version = .ok l) :
    ∀ cp ∈ l, smapInv cp.services := by
  unfold parse_complex_prices at h
  cases data with
  | obj countries => exact cx_countries_inv version countries l h
  | num q => cases h
  | str s => cases h
  | bool b => cases h
  | null => cases h
  | arr items => cases h

/-- C8.  Confirmed: every `ServicePrice` inside any `CountryPrices`
produced by the standard `getPrices` parser, the
`getTopCountriesByService` parser (with or without a service filter),
or the SMSBower complex parser (v2 and v3 alike) satisfies
min_price ≤ every value in cost ≤ max_price, and a scalar cost forces
min_price == max_price == cost. -/
theorem claim_C8_price_invariant :
    (∀ (data : JVal) (l : List CountryPrices), parse_prices_data data = .ok l →
      ∀ cp ∈ l, ∀ kv ∈ cp.services, priceInvariant kv.2) ∧
    (∀ (service : Option String) (data : JVal) (l : List CountryPrices),
      parse_top_countries service data = .ok l →
      ∀ cp ∈ l, ∀ kv ∈ cp.services, priceInvariant kv.2) ∧
    (∀ (data : JVal) (version : String) (l : List CountryPrices),
      parse_complex_prices data version = .ok l →
      ∀ cp ∈ l, ∀ kv ∈ cp.services, priceInvariant kv.2) := by
  refine ⟨?_, ?_, ?_⟩
  · intro data l h cp hcp kv hkv
    exact parse_prices_data_inv data l h cp hcp kv hkv
  · intro service data l h cp hcp kv hkv
    exact parse_top_countries_inv service data l h cp hcp kv hkv
  · intro data version l h cp hcp kv hkv
    exact parse_complex_prices_inv data version l h cp hcp kv hkv

/-- Witness for C8 at the spec's four example payloads. -/
theorem claim_C8_witness :
    (parse_prices_data stdExample =
        .ok [{ country_id := 0, services := [("tg", stdTgSp)] }] ∧
      priceInvariant stdTgSp) ∧
    (parse_top_countries (some "tg") tcExample =
        .ok [{ country_id := 0, services := [("tg", tcTgSp)] }] ∧
      priceInvariant tcTgSp) ∧
    (parse_complex_prices v2Example "v2" =
        .ok [{ country_id := 0, services := [("tg", v2TgSp)] }] ∧
      priceInvariant v2TgSp) ∧
    (parse_complex_prices v3Example "v3" =
        .ok [{ country_id := 0, services := [("tg", v3TgSp)] }] ∧
      priceInvariant v3TgSp) :=
  ⟨⟨by decide,
    claim_C8_price_invariant.1 stdExample
      [{ country_id := 0, services := [("tg", stdTgSp)] }] (by decide)
      { country_id := 0, services := [("tg", stdTgSp)] } (by decide)
      ("tg", stdTgSp) (by decide)⟩,
   ⟨by decide,
    claim_C8_price_invariant.2.1 (some "tg") tcExample
      [{ country_id := 0, services := [("tg", tcTgSp)] }] (by decide)
      { country_id := 0, services := [("tg", tcTgSp)] } (by decide)
      ("tg", tcTgSp) (by decide)⟩,
   ⟨by decide,
    claim_C8_price_invariant.2.2 v2Example "v2"
      [{ country_id := 0, services := [("tg", v2TgSp)] }] (by decide)
      { country_id := 0, services := [("tg", v2TgSp)] } (by decide)
      ("tg", v2TgSp) (by decide)⟩,
   ⟨by decide,
    claim_C8_price_invariant.2.2 v3Example "v3"
      [{ country_id := 0, services := [("tg", v3TgSp)] }] (by decide)
      { country_id := 0, services := [("tg", v3TgSp)] } (by decide)
      ("tg", v3TgSp) (by decide)⟩⟩

end PyHub
